import Mathlib

/-!
# rlimbu/snippets: the request pipeline built by `routes()`

A verification development for `cmd/web/routes.go`.  The file embeds

* the part of `net/http` (Go 1.22 and later) that `routes()` relies on: the
  pattern language of `ServeMux`, path cleaning, matching, trailing-slash and
  clean-path redirects, and the 404/405 policy; what differs between
  releases (the status of a redirect, the `Location` it carries) is a
  parameter, `Toolchain`;
* the part of `github.com/justinas/alice` that `routes()` relies on: `New`,
  `Append`, `Then` and `ThenFunc`;
* `routes()` itself: the fifteen registrations and the chains `dynamic`,
  `protected` and `standard`;
* a nested-wrapper execution model in which every middleware stage has a
  pre-logic that either hands the request on or answers it, and a post-logic;
  stages and handler bodies are total, so a failing (panicking) stage is not
  part of the model;
* the middleware and handler bodies of the application as the specification
  describes them (`middleware.go` and `handlers.go` are not among the
  sources).

The statements about order and dispatch hold for arbitrary stage and handler
bodies; the statements about response codes of the CSRF guard, the
authorization gate and `ping` are about the bodies modelled from the
specification.

Go strings are byte strings; here a path is a `List Char` in which every
character stands for one byte.
-/

namespace Snippets

/-! ## Byte-string helpers (`strings` package) -/

/-- The text before the first `/` and the text from that `/` on
(`strings.IndexByte(s, '/')` followed by slicing). -/
def cutAtSlash : List Char → List Char × List Char
  | [] => ([], [])
  | c :: cs =>
    if c = '/' then ([], c :: cs)
    else ((cutAtSlash cs).1.cons c, (cutAtSlash cs).2)

/-- Number of `/` bytes, `strings.Count(path, "/")`. -/
def countSlash (p : List Char) : Nat := p.count '/'

/-- The pieces between slashes, `strings.Split(s, "/")`. -/
def splitSlash : List Char → List (List Char)
  | [] => [[]]
  | c :: cs =>
    if c = '/' then [] :: splitSlash cs
    else
      match splitSlash cs with
      | [] => [[c]]
      | x :: xs => (c :: x) :: xs

/-- Joins path elements with a leading slash before each. -/
def joinSlash : List (List Char) → List Char
  | [] => []
  | e :: es => '/' :: (e ++ joinSlash es)

/-! ## `net/url`: unescaping of one path segment -/

/-- Hexadecimal digit test, `ishex`. -/
def ishex (c : Char) : Bool :=
  ('0' ≤ c ∧ c ≤ '9') || ('a' ≤ c ∧ c ≤ 'f') || ('A' ≤ c ∧ c ≤ 'F')

/-- Value of a hexadecimal digit, `unhex`. -/
def unhex (c : Char) : Nat :=
  if '0' ≤ c ∧ c ≤ '9' then c.toNat - '0'.toNat
  else if 'a' ≤ c ∧ c ≤ 'f' then c.toNat - 'a'.toNat + 10
  else if 'A' ≤ c ∧ c ≤ 'F' then c.toNat - 'A'.toNat + 10
  else 0

/-- Percent-decoding of a path segment, `url.PathUnescape`; `none` is the
`EscapeError` case (a `%` not followed by two hexadecimal digits). -/
def unescape : List Char → Option (List Char)
  | [] => some []
  | '%' :: a :: b :: rest =>
    if ishex a && ishex b then
      (unescape rest).map (List.cons (Char.ofNat (16 * unhex a + unhex b)))
    else none
  | c :: rest =>
    if c = '%' then none else (unescape rest).map (List.cons c)

/-- Decoding that keeps the text unchanged when it is malformed,
`pathUnescape` of `net/http`. -/
def pathUnescape (s : List Char) : List Char :=
  match unescape s with
  | some u => u
  | none => s

/-! ## `path.Clean` and `cleanPath` -/

/-- The element stack of `path.Clean` for a rooted path: empty and `.`
elements vanish, `..` removes the element before it (or nothing at the
root).  The stack is kept reversed. -/
def cleanElems : List (List Char) → List (List Char) → List (List Char)
  | [], st => st.reverse
  | e :: es, st =>
    if e = [] ∨ e = ['.'] then cleanElems es st
    else if e = ['.', '.'] then cleanElems es st.tail
    else cleanElems es (e :: st)

/-- Lexical cleaning of a rooted path, `path.Clean` (the root is `/`). -/
def pathClean (p : List Char) : List Char :=
  match cleanElems (splitSlash p) [] with
  | [] => ['/']
  | es => joinSlash es

/-- Canonical form of a request path, `cleanPath` of `net/http`: rooted,
cleaned, and with a trailing slash kept. -/
def cleanPath (p : List Char) : List Char :=
  if p = [] then ['/']
  else
    let p1 := if p.head? = some '/' then p else '/' :: p
    let np := pathClean p1
    if p1.getLast? = some '/' ∧ np ≠ ['/'] then
      (if p1.length = np.length + 1 ∧ np.isPrefixOf p1 then p1 else np ++ ['/'])
    else np

/-! ## `net/http`: patterns -/

/-- One element of a pattern path, `segment` of `net/http/pattern.go`:
a literal (`wild = false`; the literal `/` stands for `{$}`), a single
wildcard `{name}`, or a multi wildcard `{name...}` (anonymous for a
trailing slash). -/
structure segment where
  s : List Char
  wild : Bool
  multi : Bool
deriving DecidableEq, Repr

/-- A parsed pattern `[METHOD ][HOST]/[PATH]`, `pattern` of `net/http`. -/
structure pattern where
  str : String
  method : String
  host : List Char
  segments : List segment
deriving DecidableEq, Repr

/-- Token characters of RFC 9110, used by `validMethod`. -/
def isTokenChar (c : Char) : Bool :=
  c.isAlphanum || "!#$%&*+-.^_|~".data.contains c || c.toNat = 39 || c.toNat = 96

/-- A method is a non-empty token, `validMethod`. -/
def validMethod (m : List Char) : Bool :=
  m ≠ [] && m.all isTokenChar

/-- Wildcard names are identifiers, `isValidWildcardName` (ASCII letters,
digits after the first position, and the underscore). -/
def isValidWildcardName (n : List Char) : Bool :=
  match n with
  | [] => false
  | c :: cs => (c.isAlpha || c = '_') && cs.all (fun d => d.isAlphanum || d = '_')

/-- The name and multi flag of a wildcard body, `strings.CutSuffix(name, "...")`. -/
def cutDots (name : List Char) : List Char × Bool :=
  if ['.', '.', '.'].isSuffixOf name then (name.take (name.length - 3), true)
  else (name, false)

/-- The segment loop of `parsePattern`, over the slash-separated pieces of
the pattern path; `seen` holds the wildcard names met so far. -/
def parseSegments : List (List Char) → List (List Char) → Option (List segment)
  | [], _ => some []
  | seg :: rest, seen =>
    if seg = [] ∧ rest = [] then some [⟨[], true, true⟩]
    else if ¬ seg.contains '{' then
      (parseSegments rest seen).map (List.cons ⟨pathUnescape seg, false, false⟩)
    else if seg.head? ≠ some '{' then none
    else if seg.getLast? ≠ some '}' then none
    else
      let name := seg.tail.dropLast
      if name = ['$'] then
        (if rest ≠ [] then none else some [⟨['/'], false, false⟩])
      else
        let nm := cutDots name
        if nm.2 ∧ rest ≠ [] then none
        else if nm.1 = [] then none
        else if ¬ isValidWildcardName nm.1 then none
        else if nm.1 ∈ seen then none
        else (parseSegments rest (nm.1 :: seen)).map (List.cons ⟨nm.1, true, nm.2⟩)

/-- Splits a pattern at its first space or tab into method and rest,
trimming further blanks (`strings.IndexAny` and `strings.TrimLeft`). -/
def cutMethod : List Char → Option (List Char × List Char)
  | [] => none
  | c :: cs =>
    if c = ' ' ∨ c = '\t' then some ([], cs.dropWhile (fun d => d = ' ' ∨ d = '\t'))
    else
      match cutMethod cs with
      | none => none
      | some (m, r) => some (c :: m, r)

/-- Pattern parser, `parsePattern` of `net/http`; `none` where Go returns
an error (and `ServeMux.Handle` panics). -/
def parsePattern (s : String) : Option pattern :=
  if s.data = [] then none
  else
    let mr : List Char × List Char :=
      match cutMethod s.data with
      | some (m, r) => (m, r)
      | none => ([], s.data)
    if mr.1 ≠ [] ∧ ¬ validMethod mr.1 then none
    else if ¬ mr.2.contains '/' then none
    else
      let hp := cutAtSlash mr.2
      if hp.1.contains '{' then none
      else if mr.1 ≠ [] ∧ mr.1 ≠ "CONNECT".data ∧ hp.2 ≠ cleanPath hp.2 then none
      else
        (parseSegments (splitSlash hp.2.tail) []).map
          (fun segs => ⟨s, String.mk mr.1, hp.1, segs⟩)

/-! ## `net/http`: matching a path against one pattern -/

/-- First path segment and the rest, `firstSegment` of
`net/http/routing_tree.go`: the path begins with a slash; a path that is
only a slash yields the marker `/`; the segment is returned unescaped. -/
def firstSegment (path : List Char) : List Char × List Char :=
  if path = ['/'] then (['/'], [])
  else ((pathUnescape (cutAtSlash path.tail).1), (cutAtSlash path.tail).2)

/-- Path match of one pattern, the walk of `routingNode.matchPath` along
the branch of the tree that holds the pattern: a literal must equal the
segment, a single wildcard takes any segment but the trailing-slash marker,
a multi wildcard takes the non-empty rest.  The result lists the wildcard
values (`Request.PathValue`). -/
def matchPath : List segment → List Char → List (List Char) → Option (List (List Char))
  | [], path, ms => if path = [] then some ms else none
  | sg :: rest, path, ms =>
    if path = [] then none
    else if sg.multi then
      some (if sg.s ≠ [] then ms ++ [pathUnescape path.tail] else ms)
    else if sg.wild then
      (if (firstSegment path).1 ≠ ['/'] then
        matchPath rest (firstSegment path).2 (ms ++ [(firstSegment path).1])
      else none)
    else if sg.s = (firstSegment path).1 then matchPath rest (firstSegment path).2 ms
    else none

/-- Method test of `routingNode.matchMethodAndPath`: the pattern names the
request method, or names GET and the request is HEAD, or names none. -/
def pattern.matchMethod (p : pattern) (method : String) : Bool :=
  p.method = "" || p.method = method || (p.method = "GET" && method = "HEAD")

/-- Host test of `routingNode.match`: the pattern names the host or none. -/
def pattern.matchHost (p : pattern) (host : List Char) : Bool :=
  p.host = [] || p.host = host

/-- Path test alone (any method). -/
def pattern.matchesPath (p : pattern) (host path : List Char) : Bool :=
  p.matchHost host && (matchPath p.segments path []).isSome

/-- Full test: host, method and path. -/
def pattern.matches (p : pattern) (host : List Char) (method : String) (path : List Char) : Bool :=
  p.matchMethod method && p.matchesPath host path

/-- Last segment of the pattern, `pattern.lastSegment`. -/
def pattern.lastSegment (p : pattern) : segment :=
  p.segments.getLast?.getD ⟨[], false, false⟩

/-! ## `net/http`: the multiplexer -/

/-- A registration: the parsed pattern and its handler. -/
structure Entry (H : Type) where
  pat : pattern
  handler : H
deriving DecidableEq, Repr

/-- The registered patterns of a `ServeMux`, in registration order. -/
structure ServeMux (H : Type) where
  entries : List (Entry H)
deriving DecidableEq, Repr

/-- Fresh multiplexer, `http.NewServeMux`. -/
def NewServeMux {H : Type} : ServeMux H := ⟨[]⟩

/-- Registration, `ServeMux.Handle` / `ServeMux.HandleFunc`.  Go panics on
a pattern that does not parse; here such a call registers nothing. -/
def ServeMux.Handle {H : Type} (mux : ServeMux H) (pat : String) (h : H) : ServeMux H :=
  match parsePattern pat with
  | some p => ⟨mux.entries ++ [⟨p, h⟩]⟩
  | none => mux

/-- The matching registration with the wildcard values, `routingNode.match`.
Go's tree returns the most specific of several matching patterns; the
choice made here (the earliest registered) only matters when several match. -/
def ServeMux.match {H : Type} (mux : ServeMux H) (host : List Char) (method : String)
    (path : List Char) : Option (Entry H × List (List Char)) :=
  match mux.entries.find? (fun e => e.pat.matches host method path) with
  | some e => some (e, (matchPath e.pat.segments path []).getD [])
  | none => none

/-- Whether the match consumed the whole path, `exactMatch`: `n` is the
matched registration, if any. -/
def exactMatch {H : Type} (n : Option (Entry H × List (List Char))) (path : List Char) : Bool :=
  match n with
  | none => false
  | some (e, _) =>
    if ¬ e.pat.lastSegment.multi then true
    else if path ≠ [] ∧ path.getLast? ≠ some '/' then false
    else e.pat.segments.length = countSlash path

/-- Result of `ServeMux.matchOrRedirect`: the trailing-slash redirect, or
the match. -/
inductive Step (H : Type) where
  | redirectTo
  | node (n : Option (Entry H × List (List Char)))

/-- The match, or the redirect to the same path with a trailing slash when
only that one matches exactly, `ServeMux.matchOrRedirect`; `withURL = false`
is the call with a nil URL. -/
def ServeMux.matchOrRedirect {H : Type} (mux : ServeMux H) (host : List Char) (method : String)
    (path : List Char) (withURL : Bool) : Step H :=
  if ¬ exactMatch (mux.match host method path) path ∧ withURL ∧ path.getLast? ≠ some '/' then
    (if exactMatch (mux.match host method (path ++ ['/'])) (path ++ ['/']) then
      .redirectTo
    else .node (mux.match host method path))
  else .node (mux.match host method path)

/-- Insertion into a list sorted bytewise, without repetition. -/
def insertSorted (m : String) : List String → List String
  | [] => [m]
  | x :: xs =>
    if m = x then x :: xs
    else if m.data < x.data then m :: x :: xs
    else x :: insertSorted m xs

/-- The methods named by patterns matching the path (with or without an
added trailing slash), HEAD added when GET is among them, sorted:
`ServeMux.matchingMethods`. -/
def ServeMux.matchingMethods {H : Type} (mux : ServeMux H) (host path : List Char) : List String :=
  let hit (e : Entry H) : Bool :=
    e.pat.method ≠ "" &&
      (e.pat.matchesPath host path ||
        (path.getLast? ≠ some '/' && e.pat.matchesPath host (path ++ ['/'])))
  let ms := (mux.entries.filter hit).map (fun e => e.pat.method)
  let ms := if "GET" ∈ ms then "HEAD" :: ms else ms
  ms.foldr insertSorted []

/-- The two redirects of `ServeMux.findHandler`: to the path with a trailing
slash added, and to the cleaned path. -/
inductive RedirectKind where
  | trailingSlash
  | cleanedPath
deriving DecidableEq, Repr

/-- What `ServeMux.findHandler` selects for a request: a registration, or
one of the multiplexer's own handlers (`http.RedirectHandler`, the 405
handler, `http.NotFoundHandler`). -/
inductive Outcome (H : Type) where
  | found (e : Entry H) (pathValues : List (List Char))
  | redirect (kind : RedirectKind)
  | methodNotAllowed (allow : List String)
  | notFound
deriving DecidableEq, Repr

/-- The end of `findHandler`: the matched registration, or, without one,
405 when a pattern naming another method matches and 404 otherwise. -/
def ServeMux.finish {H : Type} (mux : ServeMux H) (host path : List Char)
    (n : Option (Entry H × List (List Char))) : Outcome H :=
  match n with
  | some (e, ms) => .found e ms
  | none =>
    if mux.matchingMethods host path ≠ [] then .methodNotAllowed (mux.matchingMethods host path)
    else .notFound

/-- Handler selection, `ServeMux.findHandler`.  `path` is the escaped URL
path.  A CONNECT request is matched as it stands; any other request is
matched on its cleaned path and redirected when the path was not clean.
The redirect outcome records which redirect it is; the reply itself (status,
`Location` as `net/http` builds and renders it, body) belongs to the
`Toolchain`. -/
def ServeMux.findHandler {H : Type} (mux : ServeMux H) (host : List Char) (method : String)
    (path : List Char) : Outcome H :=
  if method = "CONNECT" then
    match mux.matchOrRedirect host method path true with
    | .redirectTo => .redirect .trailingSlash
    | .node _ =>
      match mux.matchOrRedirect host method path false with
      | .redirectTo => .redirect .trailingSlash
      | .node n => mux.finish host path n
  else
    match mux.matchOrRedirect host method (cleanPath path) true with
    | .redirectTo => .redirect .trailingSlash
    | .node n =>
      if cleanPath path ≠ path then .redirect .cleanedPath
      else mux.finish host (cleanPath path) n

/-! ## `github.com/justinas/alice`: middleware chains -/

/-- The middleware constructors named in `routes()`. -/
inductive Middleware where
  | LoadAndSave
  | noSurf
  | authenticate
  | requireAuthentication
  | recoverPanic
  | logRequest
  | commonHeaders
deriving DecidableEq, Repr

/-- The terminal handlers named in `routes()`; `fileServerFS` is
`http.FileServerFS(ui.Files)`. -/
inductive HandlerName where
  | fileServerFS
  | ping
  | home
  | about
  | snippetView
  | userSignup
  | userSignupPost
  | userLogin
  | userLoginPost
  | snippetCreate
  | snippetCreatePost
  | accountView
  | accountPasswordUpdate
  | accountPasswordUpdatePost
  | userLogoutPost
deriving DecidableEq, Repr

/-- A handler as built in `routes()`: a terminal `T`, or a middleware
constructor applied to a handler.  `wrap m h` is the Go value `m(h)`. -/
inductive Wrapped (T : Type) where
  | base (t : T)
  | wrap (m : Middleware) (next : Wrapped T)
deriving DecidableEq, Repr

/-- An immutable list of constructors, `alice.Chain`. -/
structure Chain where
  constructors : List Middleware
deriving DecidableEq, Repr

namespace alice

/-- New chain holding a copy of the given constructors, `alice.New`. -/
def New (constructors : List Middleware) : Chain := ⟨[] ++ constructors⟩

end alice

/-- Application of the chain to a handler, `Chain.Then`: the loop
`for i := range c.constructors { h = c.constructors[len-1-i](h) }`. -/
def Chain.Then {T : Type} (c : Chain) (h : Wrapped T) : Wrapped T :=
  (List.range c.constructors.length).foldl
    (fun acc i =>
      match c.constructors.get? (c.constructors.length - 1 - i) with
      | some m => .wrap m acc
      | none => acc)
    h

/-- Application of the chain to a handler function, `Chain.ThenFunc`. -/
def Chain.ThenFunc {T : Type} (c : Chain) (fn : T) : Wrapped T := c.Then (.base fn)

/-- New chain with further constructors at the end, `Chain.Append`: the
constructors are copied into a new slice, the receiver is not modified. -/
def Chain.Append (c : Chain) (constructors : List Middleware) : Chain :=
  ⟨([] ++ c.constructors) ++ constructors⟩

/-! ## `cmd/web/routes.go` -/

/-- The chain `dynamic` of `routes()`. -/
def dynamic : Chain := alice.New [.LoadAndSave, .noSurf, .authenticate]

/-- The chain named `protected` in `routes()` (a reserved word here). -/
def protectedChain : Chain := dynamic.Append [.requireAuthentication]

/-- The chain `standard` of `routes()`. -/
def standard : Chain := alice.New [.recoverPanic, .logRequest, .commonHeaders]

/-- The multiplexer `mux` of `routes()` after its fifteen registrations. -/
def mux : ServeMux (Wrapped HandlerName) :=
  let mux : ServeMux (Wrapped HandlerName) := NewServeMux
  let mux := mux.Handle "GET /static/" (.base .fileServerFS)
  let mux := mux.Handle "/ping" (.base .ping)
  let mux := mux.Handle "GET /{$}" (dynamic.ThenFunc .home)
  let mux := mux.Handle "GET /about" (dynamic.ThenFunc .about)
  let mux := mux.Handle "GET /snippet/view/{id}" (dynamic.ThenFunc .snippetView)
  let mux := mux.Handle "GET /user/signup" (dynamic.ThenFunc .userSignup)
  let mux := mux.Handle "POST /user/signup" (dynamic.ThenFunc .userSignupPost)
  let mux := mux.Handle "GET /user/login" (dynamic.ThenFunc .userLogin)
  let mux := mux.Handle "POST /user/login" (dynamic.ThenFunc .userLoginPost)
  let mux := mux.Handle "GET /snippet/create" (protectedChain.ThenFunc .snippetCreate)
  let mux := mux.Handle "POST /snippet/create" (protectedChain.ThenFunc .snippetCreatePost)
  let mux := mux.Handle "GET /account/view" (protectedChain.ThenFunc .accountView)
  let mux := mux.Handle "GET /account/password/update"
    (protectedChain.ThenFunc .accountPasswordUpdate)
  let mux := mux.Handle "POST /account/password/update"
    (protectedChain.ThenFunc .accountPasswordUpdatePost)
  let mux := mux.Handle "POST /user/logout" (protectedChain.ThenFunc .userLogoutPost)
  mux

/-- The handler returned by `routes()`: `standard.Then(mux)`. -/
def routes : Wrapped (ServeMux (Wrapped HandlerName)) := standard.Then (.base mux)

/-! ## Requests, responses and the state a request runs against -/

/-- What the client receives: status code, header fields and body. -/
structure Response where
  status : Nat
  header : List (String × String)
  body : String
deriving DecidableEq, Repr

/-- The response of a fresh `http.ResponseWriter`: status 200 until a
handler writes another one, no header, no body. -/
def Response.fresh : Response := ⟨200, [], ""⟩

/-- Sets a header field, replacing an earlier value, `Header.Set`. -/
def Response.set (w : Response) (key value : String) : Response :=
  { w with header := (w.header.filter (fun kv => kv.1 ≠ key)) ++ [(key, value)] }

/-- Value of a header field, `Header.Get`. -/
def Response.get (w : Response) (key : String) : Option String :=
  (w.header.find? (fun kv => kv.1 = key)).map Prod.snd

/-- Plain-text error reply, `http.Error`. -/
def Response.error (w : Response) (msg : String) (code : Nat) : Response :=
  { ((w.set "Content-Type" "text/plain; charset=utf-8").set "X-Content-Type-Options" "nosniff")
      with status := code, body := msg ++ "\n" }

/-- Redirect reply, `http.Redirect`: the `Location` field and the status. -/
def Response.redirect (w : Response) (location : String) (code : Nat) : Response :=
  { (w.set "Location" location) with status := code }

/-- Session data: the authenticated-user identifier, the CSRF token bound
to the session, and a flash message. -/
structure Session where
  authenticatedUserID : Option Nat
  csrfToken : Option String
  flash : Option String
deriving DecidableEq, Repr

/-- The session of a client that presented no (valid) cookie. -/
def Session.fresh : Session := ⟨none, none, none⟩

/-- An inbound request as the client sent it. -/
structure Request where
  method : String
  host : List Char
  path : List Char
  proto : String
  remoteAddr : String
  sessionCookie : Option String
  csrfToken : Option String
  form : List (String × String)
deriving DecidableEq, Repr

/-- The values the pipeline attaches to the request on the way in
(`Request.Pattern`, `Request.PathValue`, and the authentication fact kept in
the request context). -/
structure Ctx where
  pattern : String
  pathValues : List (List Char)
  isAuthenticated : Bool
deriving DecidableEq, Repr

/-- The context of a request that has just arrived. -/
def Ctx.empty : Ctx := ⟨"", [], false⟩

/-- Everything a stage or handler may read and write: the shared session
store and user table, the session of the request in flight, the request
log, and the response under construction. -/
structure State where
  sessions : List (String × Session)
  users : List Nat
  session : Session
  log : List String
  resp : Response
deriving DecidableEq, Repr

/-- Observable steps of one request, in the order they happen. -/
inductive Event where
  | enter (m : Middleware)
  | exit (m : Middleware)
  | router (selected : Option String)
  | handler (h : HandlerName)
deriving DecidableEq, Repr

/-- Outcome of a stage's pre-logic: hand the request on, with the context
it attaches, or answer it and return. -/
inductive Decision where
  | next (c : Ctx) (s : State)
  | respond (s : State)

/-- A middleware body: what it does before calling the next handler, with
the choice of not calling it, and what it does after the call returns. -/
structure Stage where
  pre : Request → Ctx → State → Decision
  post : Request → Ctx → State → State

/-- A handler body: it reads the request and its context and acts on the
state. -/
abbrev Body := Request → Ctx → State → State

/-- Execution of a wrapped handler, the nested calls of `ServeHTTP`: each
wrapper runs its pre-logic, calls the handler it wraps unless it answered
itself, runs its post-logic and returns.  The second component lists the
events of the call. -/
def Wrapped.ServeHTTP {T : Type} (mw : Middleware → Stage)
    (base : T → Request → Ctx → State → State × List Event) :
    Wrapped T → Request → Ctx → State → State × List Event
  | .base t, r, c, s => base t r c s
  | .wrap m next, r, c, s =>
    match (mw m).pre r c s with
    | .next c1 s1 =>
      ((mw m).post r c1 (next.ServeHTTP mw base r c1 s1).1,
        Event.enter m :: (next.ServeHTTP mw base r c1 s1).2 ++ [Event.exit m])
    | .respond s1 => (s1, [Event.enter m, Event.exit m])

/-- Terminal handler of a route: the handler body runs once. -/
def terminal (hb : HandlerName → Body) (h : HandlerName)
    (r : Request) (c : Ctx) (s : State) : State × List Event :=
  (hb h r c s, [Event.handler h])

/-- Rendering of a byte list as text. -/
def text (p : List Char) : String := String.mk p

/-- The status of a redirect of `ServeMux`: `StatusMovedPermanently` or
`StatusTemporaryRedirect`, depending on the release of `net/http`. -/
inductive RedirectCode where
  | movedPermanently
  | temporaryRedirect
deriving DecidableEq, Repr

/-- The status code as a number. -/
def RedirectCode.code : RedirectCode → Nat
  | .movedPermanently => 301
  | .temporaryRedirect => 307

/-- The part of `net/http` that differs between Go releases and is not
among the sources: the status `ServeMux` gives its redirects, and what
`http.RedirectHandler` writes besides the status (the `Location` field,
built from the decoded or from the escaped path and rendered by
`url.URL.String`, the `Content-Type` field and the body for GET and HEAD). -/
structure Toolchain where
  redirectCode : RedirectKind → RedirectCode
  redirectReply : RedirectKind → Request → Response → Response

/-- Request dispatch, `ServeMux.ServeHTTP`: 400 for the request target `*`
(the only request whose URL path is `*`), otherwise the selected handler is
called with the pattern and the wildcard values attached, or the
multiplexer answers itself: with the toolchain's redirect, 405 with
`Allow`, or 404. -/
def ServeMux.ServeHTTP (tc : Toolchain) (mw : Middleware → Stage) (hb : HandlerName → Body)
    (mux : ServeMux (Wrapped HandlerName)) (r : Request) (c : Ctx) (s : State) :
    State × List Event :=
  if r.path = ['*'] then
    ({ s with resp := { s.resp with status := 400 } }, [Event.router none])
  else
    match mux.findHandler r.host r.method r.path with
    | .found e vals =>
      ((e.handler.ServeHTTP mw (terminal hb) r
          { c with pattern := e.pat.str, pathValues := vals } s).1,
        Event.router (some e.pat.str) ::
          (e.handler.ServeHTTP mw (terminal hb) r
            { c with pattern := e.pat.str, pathValues := vals } s).2)
    | .redirect kind =>
      ({ s with resp :=
          { tc.redirectReply kind r s.resp with status := (tc.redirectCode kind).code } },
        [Event.router none])
    | .methodNotAllowed allow =>
      ({ s with resp := ((s.resp.set "Allow" (", ".intercalate allow)).error
          "Method Not Allowed" 405) }, [Event.router none])
    | .notFound => ({ s with resp := s.resp.error "404 page not found" 404 }, [Event.router none])

/-- One request served by the handler that `routes()` returns, against a
fresh response writer and an empty context. -/
def serve (tc : Toolchain) (mw : Middleware → Stage) (hb : HandlerName → Body)
    (r : Request) (s : State) : State × List Event :=
  routes.ServeHTTP mw (fun m => m.ServeHTTP tc mw hb) r Ctx.empty
    { s with resp := Response.fresh }

/-- The state after a sequence of requests served one after the other. -/
def serveAll (tc : Toolchain) (mw : Middleware → Stage) (hb : HandlerName → Body) :
    List Request → State → State
  | [], s => s
  | r :: rs, s => serveAll tc mw hb rs (serve tc mw hb r s).1

/-! ## The middleware and handlers of the application

`cmd/web/middleware.go` and `cmd/web/handlers.go` are not among the source
files; their bodies follow sections 4.2 to 4.8 of the specification. -/

/-- The parts of the application the specification leaves open: the fixed
header set of `commonHeaders`, the generator of session cookie values, and
the bodies of the handlers; and the toolchain it is built with. -/
structure application where
  toolchain : Toolchain
  securityHeaders : List (String × String)
  newToken : List (String × Session) → String
  handlers : HandlerName → Body

/-- The session a request's cookie designates: the stored one, or a fresh
empty session when the cookie is absent or unknown. -/
def loadSession (s : State) (r : Request) : Session :=
  match r.sessionCookie with
  | none => Session.fresh
  | some k =>
    match s.sessions.find? (fun kv => kv.1 = k) with
    | some kv => kv.2
    | none => Session.fresh

/-- Modelled from the spec: `app.recoverPanic` (section 4.2), whose body is
not among the sources.  It wraps the whole pipeline; its recovery acts only
when an inner stage fails, and stages here are total, so the wrapper hands
every request on and returns the inner result. -/
def recoverPanic : Stage :=
  { pre := fun _ c s => .next c s, post := fun _ _ s => s }

/-- Modelled from the spec: `app.logRequest` (section 4.3), whose body is
not among the sources.  It records method, URI, protocol and remote address
of every request before handing it on. -/
def logRequest : Stage :=
  { pre := fun r c s =>
      .next c { s with log := s.log ++
        [r.remoteAddr ++ " " ++ r.proto ++ " " ++ r.method ++ " " ++ text r.path] },
    post := fun _ _ s => s }

/-- Modelled from the spec: `commonHeaders` (section 4.3), whose body is not
among the sources.  It sets the fixed header set on the response before the
handler writes. -/
def commonHeaders (app : application) : Stage :=
  { pre := fun _ c s =>
      .next c { s with resp := app.securityHeaders.foldl (fun w kv => w.set kv.1 kv.2) s.resp },
    post := fun _ _ s => s }

/-- Modelled from the spec: `sessionManager.LoadAndSave` (section 4.4), a
collaborator outside the sources.  It loads the session the cookie
designates before the rest of the chain runs, and afterwards stores the
session under the cookie value (a new one for a fresh session) and sets the
response cookie. -/
def LoadAndSave (app : application) : Stage :=
  { pre := fun r c s => .next c { s with session := loadSession s r },
    post := fun r _ s =>
      let token : String :=
        match r.sessionCookie with
        | some k => if s.sessions.any (fun kv => kv.1 = k) then k else app.newToken s.sessions
        | none => app.newToken s.sessions
      { s with
        sessions := (s.sessions.filter (fun kv => kv.1 ≠ token)) ++ [(token, s.session)],
        resp := { s.resp with header := s.resp.header ++ [("Set-Cookie", "session=" ++ token)] } } }

/-- The CSRF check of section 4.5: the submitted token is present and equals
the token bound to the session. -/
def csrfValid (r : Request) (session : Session) : Bool :=
  r.csrfToken.isSome && r.csrfToken = session.csrfToken

/-- Modelled from the spec: `noSurf` (section 4.5), whose body is not among
the sources.  On a state-changing (POST) request it compares the submitted
token with the token bound to the session and answers 400 Bad Request on
mismatch or absence; every other request passes unchanged. -/
def noSurf : Stage :=
  { pre := fun r c s =>
      if r.method = "POST" ∧ ¬ csrfValid r s.session then
        .respond { s with resp := s.resp.error "Bad Request" 400 }
      else .next c s,
    post := fun _ _ s => s }

/-- Modelled from the spec: `app.authenticate` (section 4.6), whose body is
not among the sources.  It attaches `authenticated = true` when the session
holds a user identifier that still exists, otherwise `authenticated =
false`, and always hands the request on. -/
def authenticate : Stage :=
  { pre := fun _ c s =>
      match s.session.authenticatedUserID with
      | some id => .next { c with isAuthenticated := decide (id ∈ s.users) } s
      | none => .next { c with isAuthenticated := false } s,
    post := fun _ _ s => s }

/-- Modelled from the spec: `app.requireAuthentication` (section 4.7), whose
body is not among the sources.  An unauthenticated request is redirected
(303 See Other) to the login page and the chain ends; an authenticated one
passes unchanged. -/
def requireAuthentication : Stage :=
  { pre := fun _ c s =>
      if c.isAuthenticated then .next c s
      else .respond { s with resp := s.resp.redirect "/user/login" 303 },
    post := fun _ _ s => s }

/-- Modelled from the spec: the bodies behind the constructor names of
`routes()`, as sections 4.2 to 4.7 describe them. -/
def application.middleware (app : application) : Middleware → Stage
  | .recoverPanic => recoverPanic
  | .logRequest => logRequest
  | .commonHeaders => commonHeaders app
  | .LoadAndSave => LoadAndSave app
  | .noSurf => noSurf
  | .authenticate => authenticate
  | .requireAuthentication => requireAuthentication

/-- Modelled from the spec: the `ping` handler (section 6 and `TestPing`),
whose body is not among the sources.  It writes the body `OK`; the status
stays 200. -/
def ping : Body :=
  fun _ _ s => { s with resp := { s.resp with body := s.resp.body ++ "OK" } }

/-- Modelled from the spec: the handler bodies; `ping` is fixed by the
specification, the others are the application's. -/
def application.handlerBody (app : application) : HandlerName → Body
  | .ping => ping
  | h => app.handlers h

/-- Modelled from the spec: one request served by the application, with the
specified middleware and handler bodies. -/
def application.serve (app : application) (r : Request) (s : State) : State × List Event :=
  Snippets.serve app.toolchain app.middleware app.handlerBody r s

/-- Modelled from the spec: the state after a history of requests. -/
def application.serveAll (app : application) (rs : List Request) (s : State) : State :=
  Snippets.serveAll app.toolchain app.middleware app.handlerBody rs s

/-- Modelled from the spec: whether the request carries an authenticated
identity, the fact `authenticate` establishes (section 4.6): the session the
cookie designates holds a user identifier and that user exists. -/
def authenticated (s : State) (r : Request) : Bool :=
  match (loadSession s r).authenticatedUserID with
  | some id => decide (id ∈ s.users)
  | none => false

/-- Modelled from the spec: the state in which the router receives a
request, after `logRequest` and `commonHeaders` (section 4.3): the request
is logged and the fixed headers are set on the fresh response. -/
def application.atRouter (app : application) (r : Request) (s : State) : State :=
  { s with
    log := s.log ++ [r.remoteAddr ++ " " ++ r.proto ++ " " ++ r.method ++ " " ++ text r.path],
    resp := app.securityHeaders.foldl (fun w kv => w.set kv.1 kv.2) Response.fresh }

/-! ## Vocabulary of the statements -/

/-- A literal segment. -/
def lit (s : String) : segment := ⟨s.data, false, false⟩

/-- The constructors wrapped around a terminal, outermost first. -/
def Wrapped.middlewares {T : Type} : Wrapped T → List Middleware
  | .base _ => []
  | .wrap m next => m :: next.middlewares

/-- The terminal inside the wrappers. -/
def Wrapped.inner {T : Type} : Wrapped T → T
  | .base t => t
  | .wrap _ next => next.inner

/-- The route classes of the HTTP surface table (section 6): `none`,
`public` and `protected` there. -/
inductive RouteClass where
  | unwrapped
  | publicDynamic
  | protectedDynamic
deriving DecidableEq, Repr

/-- The class of a registered handler: no wrapper, the wrappers of the
dynamic chain, or those of the protected chain. -/
def classOf (h : Wrapped HandlerName) : Option RouteClass :=
  if h.middlewares = [] then some .unwrapped
  else if h.middlewares = dynamic.constructors then some .publicDynamic
  else if h.middlewares = protectedChain.constructors then some .protectedDynamic
  else none

/-- The path of a pattern in the writing of the surface table: `/static/*`
for the trailing-slash pattern `/static/`, `/` for `/{$}`, and wildcards in
braces. -/
def surfacePath : List segment → String
  | [] => ""
  | sg :: rest =>
    (if sg.multi then (if sg.s = [] then "/*" else "/\x7b" ++ text sg.s ++ "...\x7d")
      else if sg.wild then "/\x7b" ++ text sg.s ++ "\x7d"
      else if sg.s = ['/'] then "/"
      else "/" ++ text sg.s) ++ surfacePath rest

/-- One line of the surface table, one method at a time. -/
structure Row where
  method : String
  path : String
  cls : RouteClass
deriving DecidableEq, Repr

/-- The HTTP surface table of section 6 of the specification, written out
from its words: method, path and class of each line. -/
def surface : List Row :=
  [ ⟨"GET", "/ping", .unwrapped⟩,
    ⟨"GET", "/static/*", .unwrapped⟩,
    ⟨"GET", "/", .publicDynamic⟩,
    ⟨"GET", "/about", .publicDynamic⟩,
    ⟨"GET", "/snippet/view/{id}", .publicDynamic⟩,
    ⟨"GET", "/user/signup", .publicDynamic⟩,
    ⟨"POST", "/user/signup", .publicDynamic⟩,
    ⟨"GET", "/user/login", .publicDynamic⟩,
    ⟨"POST", "/user/login", .publicDynamic⟩,
    ⟨"POST", "/user/logout", .protectedDynamic⟩,
    ⟨"GET", "/snippet/create", .protectedDynamic⟩,
    ⟨"POST", "/snippet/create", .protectedDynamic⟩,
    ⟨"GET", "/account/view", .protectedDynamic⟩,
    ⟨"GET", "/account/password/update", .protectedDynamic⟩,
    ⟨"POST", "/account/password/update", .protectedDynamic⟩ ]

/-- The registration an outcome selects, if it selects one. -/
def Outcome.selected {H : Type} : Outcome H → Option (Entry H)
  | .found e _ => some e
  | _ => none

/-- The patterns `routes()` registers on the chain `dynamic` (lines 20 to 26
of `routes.go`). -/
def publicPatterns : List String :=
  ["GET /{$}", "GET /about", "GET /snippet/view/{id}", "GET /user/signup",
    "POST /user/signup", "GET /user/login", "POST /user/login"]

/-- The patterns `routes()` registers on the chain `protected` (lines 30 to
35 of `routes.go`). -/
def protectedPatterns : List String :=
  ["GET /snippet/create", "POST /snippet/create", "GET /account/view",
    "GET /account/password/update", "POST /account/password/update", "POST /user/logout"]

/-- Two pattern paths that no path can match both: at some position before
any multi wildcard they carry different literals. -/
def disjointSegments : List segment → List segment → Bool
  | a :: as, b :: bs =>
    if a.multi || b.multi then false
    else if !a.wild && !b.wild && a.s ≠ b.s then true
    else disjointSegments as bs
  | _, _ => false

/-- Two patterns that no request can match both: no method satisfies both,
or no path does. -/
def disjointPatterns (p q : pattern) : Bool :=
  (p.method ≠ "" && q.method ≠ "" && p.method ≠ q.method &&
      !(p.method = "GET" && q.method = "HEAD") && !(p.method = "HEAD" && q.method = "GET"))
    || disjointSegments p.segments q.segments

/-- The events of stages wrapped around an inner part: the stages are
entered in order, the inner events follow, the stages return in reverse
order. -/
def nested (stages : List Middleware) (inner : List Event) : List Event :=
  stages.map Event.enter ++ inner ++ stages.reverse.map Event.exit

/-- What the way in through a list of stages yields: the stages that handed
the request on, outermost first, each with the context it handed on; the
stage that answered, if one did; and the context and state that reach the
inner handler (or, after an answer, the state the answer left). -/
structure WayIn where
  passed : List (Middleware × Ctx)
  stopped : Option Middleware
  ctx : Ctx
  state : State

/-- The way in of section 3 of the specification: the pre-logic of the
stages runs in list order, each on what the one before handed on, until a
stage answers or the list is exhausted. -/
def wayIn (mw : Middleware → Stage) (r : Request) : List Middleware → Ctx → State → WayIn
  | [], c, s => ⟨[], none, c, s⟩
  | m :: ms, c, s =>
    match (mw m).pre r c s with
    | .next c1 s1 =>
      { wayIn mw r ms c1 s1 with passed := (m, c1) :: (wayIn mw r ms c1 s1).passed }
    | .respond s1 => ⟨[], some m, c, s1⟩

/-- The way out of section 3 of the specification: the post-logic of the
stages that handed on runs in the reverse of the order in which they were
entered. -/
def wayOut (mw : Middleware → Stage) (r : Request) (passed : List (Middleware × Ctx))
    (s : State) : State :=
  passed.reverse.foldl (fun st mc => (mw mc.1).post r mc.2 st) s

/-- The events of a way in and out around the inner events: the stages are
entered in order; a stage that answered is entered and left at once, in
place of the inner events; the stages are left in reverse order. -/
def WayIn.events (w : WayIn) (inner : List Event) : List Event :=
  w.passed.map (fun mc => Event.enter mc.1)
    ++ (match w.stopped with
        | some m => [Event.enter m, Event.exit m]
        | none => inner)
    ++ w.passed.reverse.map (fun mc => Event.exit mc.1)

/-- The data flow of section 2 with the ordering of sections 3 and 5 of the
specification, written as the iterator-style executor of section 9: the
pre-logic of the outer stages in order; unless one answered, the router
attaches pattern and wildcard values; the pre-logic of the route's stages in
order; unless one answered, the handler; then the post-logic of all stages
that handed on, in reverse order. -/
def executor (mw : Middleware → Stage) (hb : HandlerName → Body)
    (outer chain : List Middleware) (pat : String) (vals : List (List Char)) (h : HandlerName)
    (r : Request) (s : State) : State × List Event :=
  match (wayIn mw r outer Ctx.empty s).stopped with
  | some _ =>
    (wayOut mw r (wayIn mw r outer Ctx.empty s).passed (wayIn mw r outer Ctx.empty s).state,
      (wayIn mw r outer Ctx.empty s).events [])
  | none =>
    match (wayIn mw r chain
        { (wayIn mw r outer Ctx.empty s).ctx with pattern := pat, pathValues := vals }
        (wayIn mw r outer Ctx.empty s).state).stopped with
    | some _ =>
      (wayOut mw r (wayIn mw r outer Ctx.empty s).passed
          (wayOut mw r
            (wayIn mw r chain
              { (wayIn mw r outer Ctx.empty s).ctx with pattern := pat, pathValues := vals }
              (wayIn mw r outer Ctx.empty s).state).passed
            (wayIn mw r chain
              { (wayIn mw r outer Ctx.empty s).ctx with pattern := pat, pathValues := vals }
              (wayIn mw r outer Ctx.empty s).state).state),
        (wayIn mw r outer Ctx.empty s).events
          (Event.router (some pat) ::
            (wayIn mw r chain
              { (wayIn mw r outer Ctx.empty s).ctx with pattern := pat, pathValues := vals }
              (wayIn mw r outer Ctx.empty s).state).events []))
    | none =>
      (wayOut mw r (wayIn mw r outer Ctx.empty s).passed
          (wayOut mw r
            (wayIn mw r chain
              { (wayIn mw r outer Ctx.empty s).ctx with pattern := pat, pathValues := vals }
              (wayIn mw r outer Ctx.empty s).state).passed
            (hb h r
              (wayIn mw r chain
                { (wayIn mw r outer Ctx.empty s).ctx with pattern := pat, pathValues := vals }
                (wayIn mw r outer Ctx.empty s).state).ctx
              (wayIn mw r chain
                { (wayIn mw r outer Ctx.empty s).ctx with pattern := pat, pathValues := vals }
                (wayIn mw r outer Ctx.empty s).state).state)),
        (wayIn mw r outer Ctx.empty s).events
          (Event.router (some pat) ::
            (wayIn mw r chain
              { (wayIn mw r outer Ctx.empty s).ctx with pattern := pat, pathValues := vals }
              (wayIn mw r outer Ctx.empty s).state).events [Event.handler h]))

/-- A request with the cookie of the session `c1` and no form. -/
def Request.withCookie (method path : String) : Request :=
  ⟨method, [], path.data, "HTTP/1.1", "", some "c1", none, []⟩

/-- The request path a pattern is matched against: the path as sent for
CONNECT, the cleaned path otherwise. -/
def canonical (method : String) (path : List Char) : List Char :=
  if method = "CONNECT" then path else cleanPath path

/-- A stage that does nothing but call the next handler. -/
def Stage.pass : Stage := { pre := fun _ c s => .next c s, post := fun _ _ s => s }

/-- A state with an empty store. -/
def State.initial : State := ⟨[], [], Session.fresh, [], Response.fresh⟩

/-- A state whose store holds one session, under the cookie `c1`, of the
existing user 1 with the CSRF token `T`. -/
def State.loggedIn : State :=
  ⟨[("c1", ⟨some 1, some "T", none⟩)], [1], Session.fresh, [], Response.fresh⟩

/-- A request with the given method and path, no cookie and no form. -/
def Request.simple (method path : String) : Request :=
  ⟨method, [], path.data, "HTTP/1.1", "", none, none, []⟩

/-- A toolchain that answers its redirects 307 and sets `Location` to the
request path followed by a slash. -/
def Toolchain.sample : Toolchain :=
  { redirectCode := fun _ => .temporaryRedirect,
    redirectReply := fun _ r w => w.set "Location" (text (r.path ++ ['/'])) }

/-- An application with two fixed headers, a constant cookie generator and
handlers that write nothing. -/
def application.sample : application :=
  { toolchain := Toolchain.sample,
    securityHeaders := [("X-Content-Type-Options", "nosniff"), ("X-Frame-Options", "deny")],
    newToken := fun _ => "fresh",
    handlers := fun _ _ _ s => s }

/-- A stage that hands every request on. -/
def Stage.handsOn (st : Stage) : Prop :=
  ∀ r c s, ∃ c1 s1, st.pre r c s = .next c1 s1

/-! ## The registrations of `routes()` -/

/-- The fifteen registrations of `routes()`, parsed, in source order. -/
theorem mux_entries :
    mux.entries =
      [ ⟨⟨"GET /static/", "GET", [], [lit "static", ⟨[], true, true⟩]⟩, .base .fileServerFS⟩,
        ⟨⟨"/ping", "", [], [lit "ping"]⟩, .base .ping⟩,
        ⟨⟨"GET /{$}", "GET", [], [lit "/"]⟩, dynamic.ThenFunc .home⟩,
        ⟨⟨"GET /about", "GET", [], [lit "about"]⟩, dynamic.ThenFunc .about⟩,
        ⟨⟨"GET /snippet/view/{id}", "GET", [], [lit "snippet", lit "view", ⟨"id".data, true, false⟩]⟩,
          dynamic.ThenFunc .snippetView⟩,
        ⟨⟨"GET /user/signup", "GET", [], [lit "user", lit "signup"]⟩, dynamic.ThenFunc .userSignup⟩,
        ⟨⟨"POST /user/signup", "POST", [], [lit "user", lit "signup"]⟩,
          dynamic.ThenFunc .userSignupPost⟩,
        ⟨⟨"GET /user/login", "GET", [], [lit "user", lit "login"]⟩, dynamic.ThenFunc .userLogin⟩,
        ⟨⟨"POST /user/login", "POST", [], [lit "user", lit "login"]⟩,
          dynamic.ThenFunc .userLoginPost⟩,
        ⟨⟨"GET /snippet/create", "GET", [], [lit "snippet", lit "create"]⟩,
          protectedChain.ThenFunc .snippetCreate⟩,
        ⟨⟨"POST /snippet/create", "POST", [], [lit "snippet", lit "create"]⟩,
          protectedChain.ThenFunc .snippetCreatePost⟩,
        ⟨⟨"GET /account/view", "GET", [], [lit "account", lit "view"]⟩,
          protectedChain.ThenFunc .accountView⟩,
        ⟨⟨"GET /account/password/update", "GET", [], [lit "account", lit "password", lit "update"]⟩,
          protectedChain.ThenFunc .accountPasswordUpdate⟩,
        ⟨⟨"POST /account/password/update", "POST", [],
            [lit "account", lit "password", lit "update"]⟩,
          protectedChain.ThenFunc .accountPasswordUpdatePost⟩,
        ⟨⟨"POST /user/logout", "POST", [], [lit "user", lit "logout"]⟩,
          protectedChain.ThenFunc .userLogoutPost⟩ ] := by
  decide

/-- The handler a dynamic registration holds. -/
theorem dynamic_ThenFunc (h : HandlerName) :
    dynamic.ThenFunc h =
      .wrap .LoadAndSave (.wrap .noSurf (.wrap .authenticate (.base h))) := rfl

/-- The handler a protected registration holds. -/
theorem protectedChain_ThenFunc (h : HandlerName) :
    protectedChain.ThenFunc h =
      .wrap .LoadAndSave (.wrap .noSurf (.wrap .authenticate
        (.wrap .requireAuthentication (.base h)))) := rfl

/-- The handler `routes()` returns, unfolded. -/
theorem routes_eq :
    routes = .wrap .recoverPanic (.wrap .logRequest (.wrap .commonHeaders (.base mux))) := rfl

/-! ## Chains -/

/-- The loop of `Chain.Then` after `n` rounds has wrapped the last `n`
constructors. -/
theorem Then_loop {T : Type} (l : List Middleware) (h : Wrapped T) :
    ∀ n, n ≤ l.length →
      (List.range n).foldl
          (fun acc i =>
            match l.get? (l.length - 1 - i) with
            | some m => Wrapped.wrap m acc
            | none => acc) h
        = (l.drop (l.length - n)).foldr Wrapped.wrap h := by
  intro n
  induction n with
  | zero => intro _; simp
  | succ n ih =>
    intro hn
    have hlt : l.length - 1 - n < l.length := by omega
    have hdrop : l.drop (l.length - (n + 1)) = l[l.length - 1 - n] :: l.drop (l.length - n) := by
      have h1 : l.length - (n + 1) = l.length - 1 - n := by omega
      have h2 : l.length - n = l.length - 1 - n + 1 := by omega
      rw [h1, h2]
      exact List.drop_eq_getElem_cons hlt
    rw [List.range_succ, List.foldl_append, ih (by omega), hdrop]
    simp [List.get?_eq_getElem?, List.getElem?_eq_getElem hlt]

/-- `Chain.Then` wraps the handler in the constructors, the first of the
chain outermost. -/
theorem Then_eq_foldr {T : Type} (c : Chain) (h : Wrapped T) :
    c.Then h = c.constructors.foldr Wrapped.wrap h := by
  have := Then_loop c.constructors h c.constructors.length (le_refl _)
  simpa [Chain.Then] using this

/-- C4: in `routes()` the protected chain is the dynamic chain
`[LoadAndSave, noSurf, authenticate]` followed by the single constructor
`requireAuthentication`; `Append` yields the receiver's list followed by the
new constructors and applies as the receiver around the appended part, so
the seven routes registered on `dynamic` carry exactly the three dynamic
wrappers, and on the six routes registered on the protected chain
`requireAuthentication` is the last wrapper before the terminal handler. -/
theorem protected_is_dynamic_plus_gate :
    dynamic.constructors = [.LoadAndSave, .noSurf, .authenticate] ∧
    protectedChain.constructors = dynamic.constructors ++ [.requireAuthentication] ∧
    (∀ (c : Chain) (cs : List Middleware), (c.Append cs).constructors = c.constructors ++ cs) ∧
    (∀ (T : Type) (c : Chain) (cs : List Middleware) (h : Wrapped T),
      (c.Append cs).Then h = c.Then ((alice.New cs).Then h)) ∧
    (∀ (T : Type) (h : Wrapped T),
      dynamic.Then h = .wrap .LoadAndSave (.wrap .noSurf (.wrap .authenticate h)) ∧
      protectedChain.Then h = dynamic.Then (.wrap .requireAuthentication h)) ∧
    (∀ e ∈ mux.entries,
      e.pat.str ∈ publicPatterns →
        e.handler = dynamic.ThenFunc e.handler.inner ∧
        e.handler.middlewares = [.LoadAndSave, .noSurf, .authenticate]) ∧
    (∀ e ∈ mux.entries,
      e.pat.str ∈ protectedPatterns →
        e.handler = .wrap .LoadAndSave (.wrap .noSurf (.wrap .authenticate
          (.wrap .requireAuthentication (.base e.handler.inner)))) ∧
        e.handler.middlewares = dynamic.constructors ++ [.requireAuthentication]) ∧
    (mux.entries.filter (fun e => e.handler.middlewares = dynamic.constructors)).length = 7 ∧
    (mux.entries.filter
      (fun e => e.handler.middlewares = dynamic.constructors ++ [.requireAuthentication])).length
        = 6 := by
  refine ⟨rfl, rfl, ?_, ?_, ?_, ?_, ?_, ?_, ?_⟩
  · intro c cs
    simp [Chain.Append]
  · intro T c cs h
    simp [Then_eq_foldr, Chain.Append, alice.New]
  · intro T h
    exact ⟨rfl, rfl⟩
  · decide
  · decide
  · decide
  · decide

/-- C3, as amended: every line (method, path) of the surface table has
exactly one registration of `routes()` serving that method on that path,
and it has the class the table states; every registration has the path and
class of a line and, when its pattern names a method, that line's method.
The registration of `/ping` names no method: it serves the table's GET and
every other method. -/
theorem surface_table_classes :
    (∀ row ∈ surface, ∃ e ∈ mux.entries,
      e.pat.matchMethod row.method = true ∧ surfacePath e.pat.segments = row.path ∧
      classOf e.handler = some row.cls ∧
      ∀ e1 ∈ mux.entries, e1.pat.matchMethod row.method = true →
        surfacePath e1.pat.segments = row.path → e1 = e) ∧
    (∀ e ∈ mux.entries, ∃ row ∈ surface,
      surfacePath e.pat.segments = row.path ∧ classOf e.handler = some row.cls ∧
      (e.pat.method = row.method ∨ (e.pat.method = "" ∧ e.pat.str = "/ping"))) ∧
    mux.entries.length = surface.length ∧
    (∀ row ∈ surface, (¬ row.path.data.contains '*' ∧ ¬ row.path.data.contains '{') →
      ∃ e ∈ mux.entries,
        (mux.findHandler [] row.method row.path.data).selected = some e ∧
        classOf e.handler = some row.cls) := by
  refine ⟨?_, ?_, ?_, ?_⟩
  · decide
  · decide
  · decide
  · decide

/-- C3 as stated fails on its last clause: `/ping` is registered without a
method, so POST `/ping` is served by a registration although the surface
table has no line for POST on `/ping`; the registrations are not all lines
of the table. -/
theorem ping_route_outside_surface_table :
    mux.findHandler [] "POST" "/ping".data
        = .found ⟨⟨"/ping", "", [], [lit "ping"]⟩, .base .ping⟩ [] ∧
    (∀ row ∈ surface, ¬ (row.method = "POST" ∧ row.path = "/ping")) ∧
    ¬ (∀ e ∈ mux.entries, ∃ row ∈ surface,
        e.pat.method = row.method ∧ surfacePath e.pat.segments = row.path) := by
  decide

/-! ## Matching -/

/-- A match of a pattern path that does not start with a multi wildcard
consumes the first segment of the path: a literal equals it, and the rest of
the pattern matches the rest of the path. -/
theorem matchPath_cons (a : segment) (as : List segment) (path : List Char)
    (ms : List (List Char)) (ham : a.multi = false)
    (h : (matchPath (a :: as) path ms).isSome = true) :
    path ≠ [] ∧ (a.wild = false → a.s = (firstSegment path).1) ∧
      ∃ ms1, (matchPath as (firstSegment path).2 ms1).isSome = true := by
  unfold matchPath at h
  by_cases hp : path = []
  · simp [hp] at h
  · simp only [hp, ham, if_false, Bool.false_eq_true] at h
    refine ⟨hp, ?_, ?_⟩
    · intro haw
      simp only [haw, if_false, Bool.false_eq_true] at h
      by_contra hne
      simp [hne] at h
    · by_cases haw : a.wild = true
      · simp only [haw, if_true] at h
        by_cases hx : (firstSegment path).1 ≠ ['/']
        · rw [if_pos hx] at h
          exact ⟨_, h⟩
        · rw [if_neg hx] at h
          simp at h
      · simp only [haw, if_false] at h
        by_cases hx : a.s = (firstSegment path).1
        · rw [if_pos hx] at h
          exact ⟨_, h⟩
        · rw [if_neg hx] at h
          simp at h

/-- Pattern paths that differ in a literal are matched by no common path. -/
theorem matchPath_disjoint :
    ∀ (p q : List segment) (path : List Char) (ms1 ms2 : List (List Char)),
      disjointSegments p q = true →
      (matchPath p path ms1).isSome = true → (matchPath q path ms2).isSome = true → False := by
  intro p
  induction p with
  | nil => intro q path ms1 ms2 h; simp [disjointSegments] at h
  | cons a as ih =>
    intro q path ms1 ms2 h h1 h2
    cases q with
    | nil => simp [disjointSegments] at h
    | cons b bs =>
      unfold disjointSegments at h
      by_cases hm : (a.multi || b.multi) = true
      · simp [hm] at h
      · have ham : a.multi = false := by
          cases hx : a.multi <;> simp_all
        have hbm : b.multi = false := by
          cases hx : b.multi <;> simp_all
        obtain ⟨_, ha, ms3, ha3⟩ := matchPath_cons a as path ms1 ham h1
        obtain ⟨_, hb, ms4, hb4⟩ := matchPath_cons b bs path ms2 hbm h2
        simp only [hm, if_false] at h
        by_cases hl : (!a.wild && !b.wild && decide (a.s ≠ b.s)) = true
        · simp only [Bool.and_eq_true, Bool.not_eq_true', decide_eq_true_eq] at hl
          exact hl.2 ((ha hl.1.1).trans (hb hl.1.2).symm)
        · simp only [hl, if_false] at h
          exact ih bs _ ms3 ms4 h ha3 hb4

/-- Disjoint patterns are matched by no common request. -/
theorem matches_disjoint (p q : pattern) (host : List Char) (method : String) (path : List Char)
    (h : disjointPatterns p q = true) (hp : p.matches host method path = true)
    (hq : q.matches host method path = true) : False := by
  simp only [pattern.matches, pattern.matchesPath, pattern.matchMethod, Bool.and_eq_true,
    Bool.or_eq_true, decide_eq_true_eq] at hp hq
  simp only [disjointPatterns, Bool.or_eq_true, Bool.and_eq_true, Bool.not_eq_true',
    decide_eq_true_eq, decide_eq_false_iff_not, ne_eq, Bool.and_eq_false_imp] at h
  rcases h with h | h
  · obtain ⟨⟨⟨⟨h1, h2⟩, h3⟩, h4⟩, h5⟩ := h
    rcases hp.1 with (hpm | hpm) | hpm <;> rcases hq.1 with (hqm | hqm) | hqm
    all_goals first
      | exact h1 hpm
      | exact h2 hqm
      | exact h3 (hpm.trans hqm.symm)
      | exact h3 (hpm.1.trans hqm.1.symm)
      | (have h6 := h4 hpm.1
         simp_all)
      | (have h6 := h5 (hpm.trans hqm.2)
         simp_all)
  · exact matchPath_disjoint _ _ _ _ _ h hp.2.2 hq.2.2

/-- The registrations of `routes()` are pairwise disjoint. -/
theorem mux_pairwise_disjoint :
    ∀ e1 ∈ mux.entries, ∀ e2 ∈ mux.entries, e1 ≠ e2 → disjointPatterns e1.pat e2.pat = true := by
  decide

/-- At most one registration of `routes()` matches a request. -/
theorem mux_match_unique (host : List Char) (method : String) (path : List Char) :
    ∀ e1 ∈ mux.entries, ∀ e2 ∈ mux.entries,
      e1.pat.matches host method path = true → e2.pat.matches host method path = true →
        e1 = e2 := by
  intro e1 h1 e2 h2 m1 m2
  by_contra hne
  exact matches_disjoint _ _ _ _ _ (mux_pairwise_disjoint e1 h1 e2 h2 hne) m1 m2

/-! ## Handler selection -/

/-- A match is a registration that matches. -/
theorem match_some {H : Type} (mux : ServeMux H) (host : List Char) (method : String)
    (path : List Char) (e : Entry H) (vals : List (List Char))
    (h : mux.match host method path = some (e, vals)) :
    e ∈ mux.entries ∧ e.pat.matches host method path = true := by
  unfold ServeMux.match at h
  split at h
  · rename_i e1 he1
    simp only [Option.some.injEq, Prod.mk.injEq] at h
    obtain ⟨rfl, _⟩ := h
    exact ⟨List.mem_of_find?_eq_some he1, by simpa using List.find?_some he1⟩
  · simp at h

/-- No match means no registration matches. -/
theorem match_none {H : Type} (mux : ServeMux H) (host : List Char) (method : String)
    (path : List Char) (h : mux.match host method path = none) :
    ∀ e ∈ mux.entries, e.pat.matches host method path = false := by
  unfold ServeMux.match at h
  split at h
  · simp at h
  · rename_i hn
    intro e he
    have := List.find?_eq_none.mp hn e he
    simpa using this

/-- An exact match is a match. -/
theorem exactMatch_some {H : Type} (n : Option (Entry H × List (List Char))) (path : List Char)
    (h : exactMatch n path = true) : ∃ e vals, n = some (e, vals) := by
  cases n with
  | none => simp [exactMatch] at h
  | some x => exact ⟨x.1, x.2, rfl⟩

/-- What each outcome of `finish` says about the match. -/
theorem finish_spec {H : Type} (mux : ServeMux H) (host path : List Char)
    (n : Option (Entry H × List (List Char))) :
    match mux.finish host path n with
    | .found e vals => n = some (e, vals)
    | .notFound => n = none ∧ mux.matchingMethods host path = []
    | .methodNotAllowed allow =>
      n = none ∧ allow = mux.matchingMethods host path ∧ allow ≠ []
    | .redirect _ => False := by
  unfold ServeMux.finish
  cases n with
  | some x => simp
  | none =>
    by_cases hm : mux.matchingMethods host path = []
    · simp [hm]
    · simp [hm]

/-- What `matchOrRedirect` returns. -/
theorem matchOrRedirect_spec {H : Type} (mux : ServeMux H) (host : List Char) (method : String)
    (path : List Char) (withURL : Bool) :
    match mux.matchOrRedirect host method path withURL with
    | .node n => n = mux.match host method path
    | .redirectTo =>
      withURL = true ∧ path.getLast? ≠ some '/' ∧
        exactMatch (mux.match host method (path ++ ['/'])) (path ++ ['/']) = true ∧
        exactMatch (mux.match host method path) path = false := by
  unfold ServeMux.matchOrRedirect
  by_cases h1 : ¬ exactMatch (mux.match host method path) path = true ∧ withURL = true ∧
      path.getLast? ≠ some '/'
  · rw [if_pos h1]
    by_cases h2 : exactMatch (mux.match host method (path ++ ['/'])) (path ++ ['/']) = true
    · rw [if_pos h2]
      exact ⟨h1.2.1, h1.2.2, h2, by simpa using h1.1⟩
    · rw [if_neg h2]
  · rw [if_neg h1]

/-- What each outcome of `findHandler` says about the matches on the
canonical path. -/
theorem findHandler_spec {H : Type} (mux : ServeMux H) (host : List Char) (method : String)
    (path : List Char) :
    match mux.findHandler host method path with
    | .found e vals =>
      mux.match host method (canonical method path) = some (e, vals) ∧
        (method = "CONNECT" ∨ cleanPath path = path)
    | .notFound =>
      mux.match host method (canonical method path) = none ∧
        mux.matchingMethods host (canonical method path) = []
    | .methodNotAllowed allow =>
      mux.match host method (canonical method path) = none ∧
        allow = mux.matchingMethods host (canonical method path) ∧ allow ≠ []
    | .redirect kind =>
      (kind = .cleanedPath ∧ method ≠ "CONNECT" ∧ cleanPath path ≠ path) ∨
      (kind = .trailingSlash ∧ (canonical method path).getLast? ≠ some '/' ∧
        exactMatch (mux.match host method (canonical method path ++ ['/']))
          (canonical method path ++ ['/']) = true ∧
        exactMatch (mux.match host method (canonical method path)) (canonical method path)
          = false) := by
  unfold ServeMux.findHandler canonical
  by_cases hc : method = "CONNECT"
  · simp only [if_pos hc]
    have m1 := matchOrRedirect_spec mux host method path true
    have m2 := matchOrRedirect_spec mux host method path false
    cases h1 : mux.matchOrRedirect host method path true with
    | redirectTo =>
      rw [h1] at m1
      exact Or.inr ⟨rfl, m1.2.1, m1.2.2.1, m1.2.2.2⟩
    | node n1 =>
      cases h2 : mux.matchOrRedirect host method path false with
      | redirectTo => rw [h2] at m2; simp at m2
      | node n =>
        rw [h2] at m2
        simp only at m2
        subst m2
        have f := finish_spec mux host path (mux.match host method path)
        simp only
        cases h3 : mux.finish host path (mux.match host method path) with
        | found e vals => rw [h3] at f; exact ⟨f, Or.inl hc⟩
        | notFound => rw [h3] at f; exact f
        | methodNotAllowed a => rw [h3] at f; exact f
        | redirect l => rw [h3] at f; exact f.elim
  · simp only [if_neg hc]
    have m1 := matchOrRedirect_spec mux host method (cleanPath path) true
    cases h1 : mux.matchOrRedirect host method (cleanPath path) true with
    | redirectTo =>
      rw [h1] at m1
      exact Or.inr ⟨rfl, m1.2.1, m1.2.2.1, m1.2.2.2⟩
    | node n =>
      rw [h1] at m1
      simp only at m1
      subst m1
      simp only
      by_cases hcl : cleanPath path ≠ path
      · rw [if_pos hcl]
        exact Or.inl ⟨rfl, hc, hcl⟩
      · rw [if_neg hcl]
        have f := finish_spec mux host (cleanPath path) (mux.match host method (cleanPath path))
        cases h3 : mux.finish host (cleanPath path) (mux.match host method (cleanPath path)) with
        | found e vals => rw [h3] at f; exact ⟨f, Or.inr (by simpa using hcl)⟩
        | notFound => rw [h3] at f; exact f
        | methodNotAllowed a => rw [h3] at f; exact f
        | redirect l => rw [h3] at f; exact f.elim

/-- Sorted insertion never yields the empty list. -/
theorem insertSorted_ne_nil (m : String) (l : List String) : insertSorted m l ≠ [] := by
  cases l with
  | nil => simp [insertSorted]
  | cons x xs =>
    unfold insertSorted
    split_ifs <;> simp

/-- The allowed methods are empty exactly when no pattern naming a method
matches the path or the path with a slash added. -/
theorem matchingMethods_eq_nil_iff {H : Type} (mux : ServeMux H) (host path : List Char) :
    mux.matchingMethods host path = [] ↔
      ∀ e ∈ mux.entries, e.pat.method ≠ "" →
        e.pat.matchesPath host path = false ∧
        (path.getLast? ≠ some '/' → e.pat.matchesPath host (path ++ ['/']) = false) := by
  unfold ServeMux.matchingMethods
  simp only
  constructor
  · intro h e he hm
    have hfil : (mux.entries.filter (fun e => decide (e.pat.method ≠ "") &&
        (e.pat.matchesPath host path ||
          (decide (path.getLast? ≠ some '/') && e.pat.matchesPath host (path ++ ['/']))))) = [] := by
      by_contra hne
      revert h
      generalize hl : List.map (fun e => e.pat.method) (mux.entries.filter _) = l
      have hl2 : l ≠ [] := by
        rw [← hl]
        simpa using hne
      split_ifs
      · simp [List.foldr, insertSorted_ne_nil]
      · cases l with
        | nil => exact absurd rfl hl2
        | cons x xs => simp [List.foldr, insertSorted_ne_nil]
    have h2 := List.filter_eq_nil_iff.mp hfil e he
    constructor
    · cases hx : e.pat.matchesPath host path
      · rfl
      · exfalso
        apply h2
        simp [hm, hx]
    · intro hs
      cases hx : e.pat.matchesPath host (path ++ ['/'])
      · rfl
      · exfalso
        apply h2
        simp [hm, hx, hs]
  · intro h
    have hfil : (mux.entries.filter (fun e => decide (e.pat.method ≠ "") &&
        (e.pat.matchesPath host path ||
          (decide (path.getLast? ≠ some '/') && e.pat.matchesPath host (path ++ ['/']))))) = [] := by
      rw [List.filter_eq_nil_iff]
      intro e he hh
      simp only [Bool.and_eq_true, Bool.or_eq_true, decide_eq_true_eq] at hh
      obtain ⟨hm, hA | ⟨hs, hC⟩⟩ := hh
      · have := h e he hm
        simp [this.1] at hA
      · have := h e he hm
        simp [this.2 hs] at hC
    rw [hfil]
    simp

/-- C7, as amended: no two registrations of `routes()` match the same
method and path, and for every request whose target is not `*` the router
has exactly one of four outcomes on the canonical path (the cleaned path;
the path as sent for CONNECT): (1) exactly one registration matches and its
chain and handler are called; (2) no pattern matches the path, no pattern
naming a method matches it with a slash added, and the response is 404;
(3) no pattern matches with the method but a pattern naming another method
matches the path, or the path with a slash added, and the response is 405;
(4) the response is a redirect, with the status the release of `net/http`
gives its redirects (301 or 307), because the path was not in cleaned form
or because the path with a slash added has an exact match and the path
itself has none. -/
theorem dispatch_outcomes (tc : Toolchain) (mw : Middleware → Stage) (hb : HandlerName → Body)
    (r : Request) (c : Ctx) (s : State) (hstar : r.path ≠ ['*']) :
    (∀ path : List Char, ∀ e1 ∈ mux.entries, ∀ e2 ∈ mux.entries,
      e1.pat.matches r.host r.method path = true →
        e2.pat.matches r.host r.method path = true → e1 = e2) ∧
    (match mux.findHandler r.host r.method r.path with
      | .found e vals =>
        e ∈ mux.entries ∧
        e.pat.matches r.host r.method (canonical r.method r.path) = true ∧
        (∀ e1 ∈ mux.entries,
          e1.pat.matches r.host r.method (canonical r.method r.path) = true → e1 = e) ∧
        (r.method = "CONNECT" ∨ cleanPath r.path = r.path) ∧
        mux.ServeHTTP tc mw hb r c s =
          ((e.handler.ServeHTTP mw (terminal hb) r
              { c with pattern := e.pat.str, pathValues := vals } s).1,
            Event.router (some e.pat.str) ::
              (e.handler.ServeHTTP mw (terminal hb) r
                { c with pattern := e.pat.str, pathValues := vals } s).2)
      | .notFound =>
        (∀ e ∈ mux.entries,
          e.pat.matchesPath r.host (canonical r.method r.path) = false ∧
          (e.pat.method ≠ "" → (canonical r.method r.path).getLast? ≠ some '/' →
            e.pat.matchesPath r.host (canonical r.method r.path ++ ['/']) = false)) ∧
        (mux.ServeHTTP tc mw hb r c s).1.resp.status = 404 ∧
        (mux.ServeHTTP tc mw hb r c s).2 = [Event.router none]
      | .methodNotAllowed _ =>
        (∀ e ∈ mux.entries,
          e.pat.matches r.host r.method (canonical r.method r.path) = false) ∧
        (∃ e ∈ mux.entries, e.pat.method ≠ "" ∧
          (e.pat.matchesPath r.host (canonical r.method r.path) = true ∨
            ((canonical r.method r.path).getLast? ≠ some '/' ∧
              e.pat.matchesPath r.host (canonical r.method r.path ++ ['/']) = true))) ∧
        (mux.ServeHTTP tc mw hb r c s).1.resp.status = 405 ∧
        (mux.ServeHTTP tc mw hb r c s).2 = [Event.router none]
      | .redirect kind =>
        ((kind = .cleanedPath ∧ r.method ≠ "CONNECT" ∧ cleanPath r.path ≠ r.path) ∨
          (kind = .trailingSlash ∧ (canonical r.method r.path).getLast? ≠ some '/' ∧
            (∃ e ∈ mux.entries,
              e.pat.matches r.host r.method (canonical r.method r.path ++ ['/']) = true) ∧
            exactMatch (mux.match r.host r.method (canonical r.method r.path))
              (canonical r.method r.path) = false)) ∧
        (mux.ServeHTTP tc mw hb r c s).1.resp.status = (tc.redirectCode kind).code ∧
        ((mux.ServeHTTP tc mw hb r c s).1.resp.status = 301 ∨
          (mux.ServeHTTP tc mw hb r c s).1.resp.status = 307) ∧
        (mux.ServeHTTP tc mw hb r c s).2 = [Event.router none]) := by
  refine ⟨fun path => mux_match_unique r.host r.method path, ?_⟩
  have hs := findHandler_spec mux r.host r.method r.path
  cases hf : mux.findHandler r.host r.method r.path with
  | found e vals =>
    rw [hf] at hs
    obtain ⟨hm, hcl⟩ := hs
    obtain ⟨he, hmt⟩ := match_some mux _ _ _ _ _ hm
    refine ⟨he, hmt, ?_, hcl, ?_⟩
    · intro e1 he1 hm1
      exact mux_match_unique _ _ _ e1 he1 e he hm1 hmt
    · simp [ServeMux.ServeHTTP, hstar, hf]
  | notFound =>
    rw [hf] at hs
    obtain ⟨hm, hnil⟩ := hs
    have hnone := match_none mux _ _ _ hm
    have hmm := (matchingMethods_eq_nil_iff mux _ _).mp hnil
    refine ⟨?_, ?_, ?_⟩
    · intro e he
      by_cases hmeth : e.pat.method = ""
      · refine ⟨?_, fun h => absurd hmeth h⟩
        have := hnone e he
        simpa [pattern.matches, pattern.matchMethod, hmeth] using this
      · exact ⟨(hmm e he hmeth).1, fun _ => (hmm e he hmeth).2⟩
    · simp [ServeMux.ServeHTTP, hstar, hf, Response.error]
    · simp [ServeMux.ServeHTTP, hstar, hf]
  | methodNotAllowed allow =>
    rw [hf] at hs
    obtain ⟨hm, hal, hne⟩ := hs
    have hnone := match_none mux _ _ _ hm
    refine ⟨hnone, ?_, ?_, ?_⟩
    · by_contra hcon
      apply hne
      rw [hal, matchingMethods_eq_nil_iff]
      intro e he hmeth
      constructor
      · cases hx : e.pat.matchesPath r.host (canonical r.method r.path)
        · rfl
        · exact absurd ⟨e, he, hmeth, Or.inl hx⟩ hcon
      · intro hsl
        cases hx : e.pat.matchesPath r.host (canonical r.method r.path ++ ['/'])
        · rfl
        · exact absurd ⟨e, he, hmeth, Or.inr ⟨hsl, hx⟩⟩ hcon
    · simp [ServeMux.ServeHTTP, hstar, hf, Response.error]
    · simp [ServeMux.ServeHTTP, hstar, hf]
  | redirect kind =>
    rw [hf] at hs
    have hst : (mux.ServeHTTP tc mw hb r c s).1.resp.status = (tc.redirectCode kind).code := by
      simp [ServeMux.ServeHTTP, hstar, hf]
    refine ⟨?_, hst, ?_, ?_⟩
    · rcases hs with h1 | ⟨h1, h2, h3, h4⟩
      · exact Or.inl h1
      · obtain ⟨e, vals, hev⟩ := exactMatch_some _ _ h3
        exact Or.inr ⟨h1, h2, ⟨e, (match_some mux _ _ _ _ _ hev).1,
          (match_some mux _ _ _ _ _ hev).2⟩, h4⟩
    · rw [hst]
      cases tc.redirectCode kind
      · exact Or.inl rfl
      · exact Or.inr rfl
    · simp [ServeMux.ServeHTTP, hstar, hf]

/-- C7 witness: GET `/about` is a request whose target is not `*`; it is
served by the one registration `GET /about`. -/
theorem dispatch_outcomes_witness :
    (Request.simple "GET" "/about").path ≠ ['*'] ∧
    (mux.findHandler [] "GET" "/about".data).selected
      = some ⟨⟨"GET /about", "GET", [], [lit "about"]⟩, dynamic.ThenFunc .about⟩ ∧
    (∀ path : List Char, ∀ e1 ∈ mux.entries, ∀ e2 ∈ mux.entries,
      e1.pat.matches [] "GET" path = true → e2.pat.matches [] "GET" path = true → e1 = e2) :=
  ⟨by decide, by decide,
    (dispatch_outcomes Toolchain.sample (fun _ => Stage.pass) (fun _ _ _ s => s)
      (Request.simple "GET" "/about") Ctx.empty State.initial (by decide)).1⟩

/-- C7 as stated fails: GET `/static` has none of the three outcomes.  No
registration is selected and no pattern matches the path `/static`, yet the
answer is neither 404 nor 405: with every release of `net/http` it is a
redirect (301 or 307), to the path with a trailing slash.  And POST `/static`
is answered 405 although no pattern matches the path `/static`. -/
theorem static_without_slash_redirects :
    mux.findHandler [] "GET" "/static".data = .redirect .trailingSlash ∧
    (mux.findHandler [] "GET" "/static".data).selected = none ∧
    (∀ e ∈ mux.entries, e.pat.matchesPath [] "/static".data = false) ∧
    (∀ tc : Toolchain,
      (mux.ServeHTTP tc (fun _ => Stage.pass) (fun _ _ _ s => s) (Request.simple "GET" "/static")
        Ctx.empty State.initial).1.resp.status ≠ 404 ∧
      (mux.ServeHTTP tc (fun _ => Stage.pass) (fun _ _ _ s => s) (Request.simple "GET" "/static")
        Ctx.empty State.initial).1.resp.status ≠ 405 ∧
      ((mux.ServeHTTP tc (fun _ => Stage.pass) (fun _ _ _ s => s)
          (Request.simple "GET" "/static") Ctx.empty State.initial).1.resp.status = 301 ∨
        (mux.ServeHTTP tc (fun _ => Stage.pass) (fun _ _ _ s => s)
          (Request.simple "GET" "/static") Ctx.empty State.initial).1.resp.status = 307)) ∧
    mux.findHandler [] "POST" "/static".data = .methodNotAllowed ["GET", "HEAD"] ∧
    (∀ tc : Toolchain,
      (mux.ServeHTTP tc (fun _ => Stage.pass) (fun _ _ _ s => s) (Request.simple "POST" "/static")
        Ctx.empty State.initial).1.resp.status = 405) := by
  have h1 : mux.findHandler [] "GET" "/static".data = .redirect .trailingSlash := by decide
  have h2 : mux.findHandler [] "POST" "/static".data = .methodNotAllowed ["GET", "HEAD"] := by
    decide
  have hst : ∀ tc : Toolchain,
      (mux.ServeHTTP tc (fun _ => Stage.pass) (fun _ _ _ s => s) (Request.simple "GET" "/static")
        Ctx.empty State.initial).1.resp.status = (tc.redirectCode .trailingSlash).code := by
    intro tc
    have hp : (Request.simple "GET" "/static").path ≠ ['*'] := by decide
    have hf : mux.findHandler (Request.simple "GET" "/static").host
        (Request.simple "GET" "/static").method (Request.simple "GET" "/static").path
        = .redirect .trailingSlash := h1
    simp [ServeMux.ServeHTTP, hp, hf]
  refine ⟨h1, by decide, by decide, ?_, h2, ?_⟩
  · intro tc
    rw [hst tc]
    cases tc.redirectCode .trailingSlash <;> simp [RedirectCode.code]
  · intro tc
    have hp : (Request.simple "POST" "/static").path ≠ ['*'] := by decide
    have hf : mux.findHandler (Request.simple "POST" "/static").host
        (Request.simple "POST" "/static").method (Request.simple "POST" "/static").path
        = .methodNotAllowed ["GET", "HEAD"] := h2
    simp [ServeMux.ServeHTTP, hp, hf, Response.error]

/-! ## Consequences for the table of `routes()` -/

/-- A registration that matches a request is the one the multiplexer
finds, since no other matches. -/
theorem mux_match_of_matches (host : List Char) (method : String) (path : List Char)
    (e : Entry (Wrapped HandlerName)) (he : e ∈ mux.entries)
    (hm : e.pat.matches host method path = true) :
    mux.match host method path = some (e, (matchPath e.pat.segments path []).getD []) := by
  unfold ServeMux.match
  cases hfind : mux.entries.find? (fun e => e.pat.matches host method path) with
  | none =>
    have := List.find?_eq_none.mp hfind e he
    simp [hm] at this
  | some e1 =>
    have h1 : e1 ∈ mux.entries := List.mem_of_find?_eq_some hfind
    have h2 : e1.pat.matches host method path = true := by simpa using List.find?_some hfind
    have := mux_match_unique host method path e1 h1 e he h2 hm
    subst this
    rfl

/-- No pattern of `routes()` names a host. -/
theorem mux_hostless : ∀ e ∈ mux.entries, e.pat.host = [] := by decide

/-- For the table of `routes()` the path test is the segment match. -/
theorem mux_matchesPath (host path : List Char) (e : Entry (Wrapped HandlerName))
    (he : e ∈ mux.entries) :
    e.pat.matchesPath host path = (matchPath e.pat.segments path []).isSome := by
  simp [pattern.matchesPath, pattern.matchHost, mux_hostless e he]

/-- A selected registration matches the request path as sent: the request
is CONNECT or its path is already clean. -/
theorem found_matches (host : List Char) (method : String) (path : List Char)
    (e : Entry (Wrapped HandlerName)) (vals : List (List Char))
    (hf : mux.findHandler host method path = .found e vals) :
    e ∈ mux.entries ∧ e.pat.matches host method path = true := by
  have hs := findHandler_spec mux host method path
  rw [hf] at hs
  obtain ⟨hm, hcl⟩ := hs
  have hcan : canonical method path = path := by
    unfold canonical
    rcases hcl with h | h
    · simp [h]
    · simp [h]
  rw [hcan] at hm
  exact match_some mux _ _ _ _ _ hm

/-- The request target `*` matches no registration of `routes()`. -/
theorem found_not_star (host : List Char) (method : String) (path : List Char)
    (e : Entry (Wrapped HandlerName)) (vals : List (List Char))
    (hf : mux.findHandler host method path = .found e vals) : path ≠ ['*'] := by
  intro hp
  obtain ⟨he, hm⟩ := found_matches host method path e vals hf
  have hno : ∀ e ∈ mux.entries, (matchPath e.pat.segments ['*'] []).isSome = false := by decide
  have h1 : e.pat.matchesPath host path = true := by
    simp only [pattern.matches, Bool.and_eq_true] at hm
    exact hm.2
  rw [mux_matchesPath host path e he, hp, hno e he] at h1
  exact absurd h1 (by decide)

/-- A handler is its wrappers around its terminal. -/
theorem Wrapped.eq_foldr {T : Type} (w : Wrapped T) :
    w = w.middlewares.foldr Wrapped.wrap (.base w.inner) := by
  induction w with
  | base t => rfl
  | wrap m next ih =>
    simp only [Wrapped.middlewares, Wrapped.inner, List.foldr]
    rw [← ih]

/-- The registrations on the protected chain are those with the four
wrappers, the registrations on `dynamic` those with the three. -/
theorem mux_classes :
    ∀ e ∈ mux.entries,
      (e.pat.str ∈ protectedPatterns ↔ e.handler.middlewares = protectedChain.constructors) ∧
      (e.pat.str ∈ publicPatterns ↔ e.handler.middlewares = dynamic.constructors) ∧
      ((e.pat.str = "/ping" ∨ e.pat.str = "GET /static/") ↔ e.handler.middlewares = []) ∧
      (e.handler.middlewares = protectedChain.constructors ∨
        e.handler.middlewares = dynamic.constructors ∨ e.handler.middlewares = []) := by
  decide

/-- The handler held by a registration on the protected chain. -/
theorem protected_handler (e : Entry (Wrapped HandlerName)) (he : e ∈ mux.entries)
    (hp : e.pat.str ∈ protectedPatterns) :
    e.handler = .wrap .LoadAndSave (.wrap .noSurf (.wrap .authenticate
      (.wrap .requireAuthentication (.base e.handler.inner)))) := by
  have hc := (mux_classes e he).1.mp hp
  have h := Wrapped.eq_foldr e.handler
  rw [hc] at h
  exact h

/-- The handler held by a registration on the dynamic chain. -/
theorem public_handler (e : Entry (Wrapped HandlerName)) (he : e ∈ mux.entries)
    (hp : e.pat.str ∈ publicPatterns) :
    e.handler = .wrap .LoadAndSave (.wrap .noSurf (.wrap .authenticate
      (.base e.handler.inner))) := by
  have hc := (mux_classes e he).2.1.mp hp
  have h := Wrapped.eq_foldr e.handler
  rw [hc] at h
  exact h

/-! ## Nested execution -/

/-- Entering one more stage around nested events. -/
theorem nested_cons (m : Middleware) (ms : List Middleware) (inner : List Event) :
    nested (m :: ms) inner = Event.enter m :: nested ms inner ++ [Event.exit m] := by
  simp [nested]

/-- The events of a wrapped handler: every wrapper was entered and the
terminal ran, or the wrappers were entered up to one that answered itself;
in both cases the wrappers return in reverse order. -/
theorem wrapped_trace {T : Type} (mw : Middleware → Stage)
    (base : T → Request → Ctx → State → State × List Event) (w : Wrapped T) :
    ∀ (r : Request) (c : Ctx) (s : State),
      (∃ c1 s1, (w.ServeHTTP mw base r c s).2 = nested w.middlewares (base w.inner r c1 s1).2) ∨
      (∃ k, k < w.middlewares.length ∧
        (w.ServeHTTP mw base r c s).2 = nested (w.middlewares.take (k + 1)) []) := by
  induction w with
  | base t =>
    intro r c s
    exact Or.inl ⟨c, s, by simp [Wrapped.ServeHTTP, Wrapped.middlewares, Wrapped.inner, nested]⟩
  | wrap m next ih =>
    intro r c s
    simp only [Wrapped.ServeHTTP, Wrapped.middlewares, Wrapped.inner]
    cases hpre : (mw m).pre r c s with
    | respond s1 =>
      exact Or.inr ⟨0, by simp, by simp [nested]⟩
    | next c1 s1 =>
      simp only
      rcases ih r c1 s1 with ⟨c2, s2, h⟩ | ⟨k, hk, h⟩
      · exact Or.inl ⟨c2, s2, by rw [h, nested_cons]⟩
      · refine Or.inr ⟨k + 1, by simpa using hk, ?_⟩
        rw [h, List.take_succ_cons, nested_cons]

/-- When every stage hands the request on, all wrappers are entered and the
terminal runs. -/
theorem wrapped_trace_full {T : Type} (mw : Middleware → Stage)
    (base : T → Request → Ctx → State → State × List Event) (w : Wrapped T) :
    (∀ m ∈ w.middlewares, (mw m).handsOn) →
    ∀ (r : Request) (c : Ctx) (s : State),
      ∃ c1 s1, (w.ServeHTTP mw base r c s).2 = nested w.middlewares (base w.inner r c1 s1).2 := by
  induction w with
  | base t =>
    intro _ r c s
    exact ⟨c, s, by simp [Wrapped.ServeHTTP, Wrapped.middlewares, Wrapped.inner, nested]⟩
  | wrap m next ih =>
    intro hon r c s
    simp only [Wrapped.ServeHTTP, Wrapped.middlewares, Wrapped.inner]
    obtain ⟨c1, s1, hpre⟩ := hon m (by simp [Wrapped.middlewares]) r c s
    rw [hpre]
    simp only
    obtain ⟨c2, s2, h⟩ :=
      ih (fun m1 h1 => hon m1 (by simp [Wrapped.middlewares, h1])) r c1 s1
    exact ⟨c2, s2, by rw [h, nested_cons]⟩

/-- The events of the router when it selects a registration. -/
theorem mux_trace_found (tc : Toolchain) (mw : Middleware → Stage) (hb : HandlerName → Body)
    (r : Request) (c : Ctx) (s : State) (e : Entry (Wrapped HandlerName))
    (vals : List (List Char)) (hf : mux.findHandler r.host r.method r.path = .found e vals) :
    (mux.ServeHTTP tc mw hb r c s).2 =
      Event.router (some e.pat.str) ::
        (e.handler.ServeHTTP mw (terminal hb) r
          { c with pattern := e.pat.str, pathValues := vals } s).2 := by
  have hstar := found_not_star _ _ _ _ _ hf
  simp [ServeMux.ServeHTTP, hstar, hf]

/-- The events of the router when it selects no registration. -/
theorem mux_trace_none (tc : Toolchain) (mw : Middleware → Stage) (hb : HandlerName → Body)
    (r : Request) (c : Ctx) (s : State)
    (hf : (mux.findHandler r.host r.method r.path).selected = none) :
    (mux.ServeHTTP tc mw hb r c s).2 = [Event.router none] := by
  unfold ServeMux.ServeHTTP
  split_ifs
  · rfl
  · cases h : mux.findHandler r.host r.method r.path with
    | found e vals => rw [h] at hf; simp [Outcome.selected] at hf
    | redirect loc => rfl
    | methodNotAllowed a => rfl
    | notFound => rfl

/-- Leaving one more stage: its post-logic runs after those inside it. -/
theorem wayOut_cons (mw : Middleware → Stage) (r : Request) (m : Middleware) (c : Ctx)
    (passed : List (Middleware × Ctx)) (s : State) :
    wayOut mw r ((m, c) :: passed) s = (mw m).post r c (wayOut mw r passed s) := by
  simp [wayOut, List.foldl_append]

/-- The nested calls of `ServeHTTP` are the way in, the inner handler, and
the way out. -/
theorem ServeHTTP_eq_wayIn {T : Type} (mw : Middleware → Stage)
    (base : T → Request → Ctx → State → State × List Event) (w : Wrapped T) :
    ∀ (r : Request) (c : Ctx) (s : State),
      w.ServeHTTP mw base r c s =
        match (wayIn mw r w.middlewares c s).stopped with
        | some _ =>
          (wayOut mw r (wayIn mw r w.middlewares c s).passed
              (wayIn mw r w.middlewares c s).state,
            (wayIn mw r w.middlewares c s).events [])
        | none =>
          (wayOut mw r (wayIn mw r w.middlewares c s).passed
              (base w.inner r (wayIn mw r w.middlewares c s).ctx
                (wayIn mw r w.middlewares c s).state).1,
            (wayIn mw r w.middlewares c s).events
              (base w.inner r (wayIn mw r w.middlewares c s).ctx
                (wayIn mw r w.middlewares c s).state).2) := by
  induction w with
  | base t =>
    intro r c s
    simp [Wrapped.ServeHTTP, Wrapped.middlewares, Wrapped.inner, wayIn, wayOut, WayIn.events]
  | wrap m next ih =>
    intro r c s
    simp only [Wrapped.ServeHTTP, Wrapped.middlewares, Wrapped.inner, wayIn]
    cases hpre : (mw m).pre r c s with
    | respond s1 =>
      simp [wayOut, WayIn.events]
    | next c1 s1 =>
      simp only
      rw [ih r c1 s1]
      cases hst : (wayIn mw r next.middlewares c1 s1).stopped with
      | some m1 =>
        simp [wayOut_cons, WayIn.events, hst]
      | none =>
        simp [wayOut_cons, WayIn.events, hst]

/-- The events of one request: the three standard stages around the
router, or the standard stages up to one that answered itself. -/
theorem serve_trace (tc : Toolchain) (mw : Middleware → Stage) (hb : HandlerName → Body)
    (r : Request) (s : State) :
    (∃ c1 s1, (serve tc mw hb r s).2 =
      nested standard.constructors (mux.ServeHTTP tc mw hb r c1 s1).2) ∨
    (∃ k, k < 3 ∧ (serve tc mw hb r s).2 = nested (standard.constructors.take (k + 1)) []) := by
  have h := wrapped_trace mw (fun m => m.ServeHTTP tc mw hb) routes r Ctx.empty
    { s with resp := Response.fresh }
  exact h

/-- The events of one request when the standard stages hand it on. -/
theorem serve_trace_full (tc : Toolchain) (mw : Middleware → Stage) (hb : HandlerName → Body)
    (r : Request) (s : State) (hon : ∀ m ∈ standard.constructors, (mw m).handsOn) :
    ∃ c1 s1, (serve tc mw hb r s).2 =
      nested standard.constructors (mux.ServeHTTP tc mw hb r c1 s1).2 := by
  have h := wrapped_trace_full mw (fun m => m.ServeHTTP tc mw hb) routes hon r Ctx.empty
    { s with resp := Response.fresh }
  exact h

/-- The events of a registered handler: its wrappers around the terminal
handler, or its wrappers up to one that answered itself. -/
theorem route_trace (mw : Middleware → Stage) (hb : HandlerName → Body)
    (w : Wrapped HandlerName) (r : Request) (c : Ctx) (s : State) :
    (w.ServeHTTP mw (terminal hb) r c s).2 = nested w.middlewares [Event.handler w.inner] ∨
    (∃ k, k < w.middlewares.length ∧
      (w.ServeHTTP mw (terminal hb) r c s).2 = nested (w.middlewares.take (k + 1)) []) := by
  rcases wrapped_trace mw (terminal hb) w r c s with ⟨c1, s1, h⟩ | h
  · exact Or.inl (by rw [h]; rfl)
  · exact Or.inr h

/-- The events of a registered handler when every stage hands on. -/
theorem route_trace_full (mw : Middleware → Stage) (hb : HandlerName → Body)
    (w : Wrapped HandlerName) (r : Request) (c : Ctx) (s : State)
    (hon : ∀ m ∈ w.middlewares, (mw m).handsOn) :
    (w.ServeHTTP mw (terminal hb) r c s).2 = nested w.middlewares [Event.handler w.inner] := by
  obtain ⟨c1, s1, h⟩ := wrapped_trace_full mw (terminal hb) w hon r c s
  rw [h]
  rfl

/-- The order of the stages around a selected registration with the
wrappers `chain`. -/
theorem chain_order (tc : Toolchain) (mw : Middleware → Stage) (hb : HandlerName → Body)
    (r : Request) (s : State) (e : Entry (Wrapped HandlerName)) (vals : List (List Char))
    (chain : List Middleware)
    (hf : mux.findHandler r.host r.method r.path = .found e vals)
    (hc : e.handler.middlewares = chain) :
    ((∀ m, (mw m).handsOn) →
      (serve tc mw hb r s).2 = nested standard.constructors
        (Event.router (some e.pat.str) :: nested chain [Event.handler e.handler.inner])) ∧
    ((serve tc mw hb r s).2 = nested standard.constructors
        (Event.router (some e.pat.str) :: nested chain [Event.handler e.handler.inner]) ∨
      (∃ k, k < chain.length ∧ (serve tc mw hb r s).2 = nested standard.constructors
        (Event.router (some e.pat.str) :: nested (chain.take (k + 1)) [])) ∨
      (∃ k, k < 3 ∧ (serve tc mw hb r s).2 = nested (standard.constructors.take (k + 1)) [])) := by
  subst hc
  constructor
  · intro hon
    obtain ⟨c1, s1, h⟩ := serve_trace_full tc mw hb r s (fun m _ => hon m)
    rw [h, mux_trace_found tc mw hb r c1 s1 e vals hf,
      route_trace_full mw hb _ _ _ _ (fun m _ => hon m)]
  · rcases serve_trace tc mw hb r s with ⟨c1, s1, h⟩ | h
    · rw [h, mux_trace_found tc mw hb r c1 s1 e vals hf]
      rcases route_trace mw hb e.handler r
          { c1 with pattern := e.pat.str, pathValues := vals } s1 with h2 | ⟨k, hk, h2⟩
      · exact Or.inl (by rw [h2])
      · exact Or.inr (Or.inl ⟨k, hk, by rw [h2]⟩)
    · exact Or.inr (Or.inr h)

/-- The router's call of a selected registration. -/
theorem mux_serve_found (tc : Toolchain) (mw : Middleware → Stage) (hb : HandlerName → Body)
    (r : Request) (c : Ctx) (s : State) (e : Entry (Wrapped HandlerName))
    (vals : List (List Char)) (hf : mux.findHandler r.host r.method r.path = .found e vals) :
    mux.ServeHTTP tc mw hb r c s =
      ((e.handler.ServeHTTP mw (terminal hb) r
          { c with pattern := e.pat.str, pathValues := vals } s).1,
        Event.router (some e.pat.str) ::
          (e.handler.ServeHTTP mw (terminal hb) r
            { c with pattern := e.pat.str, pathValues := vals } s).2) := by
  have hstar := found_not_star _ _ _ _ _ hf
  simp [ServeMux.ServeHTTP, hstar, hf]

/-- The handler returned by `routes()` runs a dispatched request as the
executor does: outer stages in, router, route stages in, handler, and all
post-logic on the way out in reverse order. -/
theorem serve_eq_executor (tc : Toolchain) (mw : Middleware → Stage) (hb : HandlerName → Body)
    (r : Request) (s : State) (e : Entry (Wrapped HandlerName)) (vals : List (List Char))
    (chain : List Middleware)
    (hf : mux.findHandler r.host r.method r.path = .found e vals)
    (hc : e.handler.middlewares = chain) :
    serve tc mw hb r s =
      executor mw hb [.recoverPanic, .logRequest, .commonHeaders] chain e.pat.str vals
        e.handler.inner r { s with resp := Response.fresh } := by
  subst hc
  have hmid : routes.middlewares = [.recoverPanic, .logRequest, .commonHeaders] := rfl
  have hin : routes.inner = mux := rfl
  unfold serve executor
  rw [ServeHTTP_eq_wayIn mw (fun m => m.ServeHTTP tc mw hb) routes, hmid, hin]
  cases ho : (wayIn mw r [.recoverPanic, .logRequest, .commonHeaders] Ctx.empty
      { s with resp := Response.fresh }).stopped with
  | some m => rfl
  | none =>
    simp only
    rw [mux_serve_found tc mw hb r _ _ e vals hf,
      ServeHTTP_eq_wayIn mw (terminal hb) e.handler]
    cases hi : (wayIn mw r e.handler.middlewares
        { (wayIn mw r [.recoverPanic, .logRequest, .commonHeaders] Ctx.empty
            { s with resp := Response.fresh }).ctx with
          pattern := e.pat.str, pathValues := vals }
        (wayIn mw r [.recoverPanic, .logRequest, .commonHeaders] Ctx.empty
          { s with resp := Response.fresh }).state).stopped with
    | some m => rfl
    | none => rfl

/-- C5: for a request that the router dispatches to a registration on the
protected chain, the pre-logic of the stages runs in the order
recoverPanic, logRequest, commonHeaders, router, LoadAndSave, noSurf,
authenticate, requireAuthentication, each on what the stage before handed
on, then the terminal handler runs, and the post-logic runs in exactly the
reverse order, each on the state the stage inside it returned; on a
registration of the dynamic chain the order is the same without
requireAuthentication.  When a stage answers instead of handing on, the
stages after it and the handler do not run, and the post-logic of the
stages entered so far still runs in reverse order: the run is that of the
executor in every case. -/
theorem pipeline_order (tc : Toolchain) (mw : Middleware → Stage) (hb : HandlerName → Body)
    (r : Request) (s : State) (e : Entry (Wrapped HandlerName)) (vals : List (List Char))
    (hf : mux.findHandler r.host r.method r.path = .found e vals) :
    (e.pat.str ∈ protectedPatterns →
      serve tc mw hb r s =
        executor mw hb [.recoverPanic, .logRequest, .commonHeaders]
          [.LoadAndSave, .noSurf, .authenticate, .requireAuthentication]
          e.pat.str vals e.handler.inner r { s with resp := Response.fresh } ∧
      (∀ (c1 c2 c3 c4 c5 c6 c7 : Ctx) (s1 s2 s3 s4 s5 s6 s7 : State),
        (mw .recoverPanic).pre r Ctx.empty { s with resp := Response.fresh } = .next c1 s1 →
        (mw .logRequest).pre r c1 s1 = .next c2 s2 →
        (mw .commonHeaders).pre r c2 s2 = .next c3 s3 →
        (mw .LoadAndSave).pre r { c3 with pattern := e.pat.str, pathValues := vals } s3
          = .next c4 s4 →
        (mw .noSurf).pre r c4 s4 = .next c5 s5 →
        (mw .authenticate).pre r c5 s5 = .next c6 s6 →
        (mw .requireAuthentication).pre r c6 s6 = .next c7 s7 →
        serve tc mw hb r s =
          ((mw .recoverPanic).post r c1 ((mw .logRequest).post r c2
            ((mw .commonHeaders).post r c3 ((mw .LoadAndSave).post r c4
              ((mw .noSurf).post r c5 ((mw .authenticate).post r c6
                ((mw .requireAuthentication).post r c7
                  (hb e.handler.inner r c7 s7))))))),
            [ .enter .recoverPanic, .enter .logRequest, .enter .commonHeaders,
              .router (some e.pat.str),
              .enter .LoadAndSave, .enter .noSurf, .enter .authenticate,
              .enter .requireAuthentication,
              .handler e.handler.inner,
              .exit .requireAuthentication, .exit .authenticate, .exit .noSurf,
              .exit .LoadAndSave,
              .exit .commonHeaders, .exit .logRequest, .exit .recoverPanic ])) ∧
      ((serve tc mw hb r s).2 = nested [.recoverPanic, .logRequest, .commonHeaders]
          (.router (some e.pat.str) ::
            nested [.LoadAndSave, .noSurf, .authenticate, .requireAuthentication]
              [.handler e.handler.inner]) ∨
        (∃ k, k < 4 ∧ (serve tc mw hb r s).2 = nested [.recoverPanic, .logRequest, .commonHeaders]
          (.router (some e.pat.str) ::
            nested ([.LoadAndSave, .noSurf, .authenticate, .requireAuthentication].take (k + 1))
              [])) ∨
        (∃ k, k < 3 ∧ (serve tc mw hb r s).2 =
          nested ([.recoverPanic, .logRequest, .commonHeaders].take (k + 1)) []))) ∧
    (e.pat.str ∈ publicPatterns →
      serve tc mw hb r s =
        executor mw hb [.recoverPanic, .logRequest, .commonHeaders]
          [.LoadAndSave, .noSurf, .authenticate]
          e.pat.str vals e.handler.inner r { s with resp := Response.fresh } ∧
      (∀ (c1 c2 c3 c4 c5 c6 : Ctx) (s1 s2 s3 s4 s5 s6 : State),
        (mw .recoverPanic).pre r Ctx.empty { s with resp := Response.fresh } = .next c1 s1 →
        (mw .logRequest).pre r c1 s1 = .next c2 s2 →
        (mw .commonHeaders).pre r c2 s2 = .next c3 s3 →
        (mw .LoadAndSave).pre r { c3 with pattern := e.pat.str, pathValues := vals } s3
          = .next c4 s4 →
        (mw .noSurf).pre r c4 s4 = .next c5 s5 →
        (mw .authenticate).pre r c5 s5 = .next c6 s6 →
        serve tc mw hb r s =
          ((mw .recoverPanic).post r c1 ((mw .logRequest).post r c2
            ((mw .commonHeaders).post r c3 ((mw .LoadAndSave).post r c4
              ((mw .noSurf).post r c5 ((mw .authenticate).post r c6
                (hb e.handler.inner r c6 s6)))))),
            [ .enter .recoverPanic, .enter .logRequest, .enter .commonHeaders,
              .router (some e.pat.str),
              .enter .LoadAndSave, .enter .noSurf, .enter .authenticate,
              .handler e.handler.inner,
              .exit .authenticate, .exit .noSurf, .exit .LoadAndSave,
              .exit .commonHeaders, .exit .logRequest, .exit .recoverPanic ])) ∧
      ((serve tc mw hb r s).2 = nested [.recoverPanic, .logRequest, .commonHeaders]
          (.router (some e.pat.str) ::
            nested [.LoadAndSave, .noSurf, .authenticate] [.handler e.handler.inner]) ∨
        (∃ k, k < 3 ∧ (serve tc mw hb r s).2 = nested [.recoverPanic, .logRequest, .commonHeaders]
          (.router (some e.pat.str) ::
            nested ([.LoadAndSave, .noSurf, .authenticate].take (k + 1)) [])) ∨
        (∃ k, k < 3 ∧ (serve tc mw hb r s).2 =
          nested ([.recoverPanic, .logRequest, .commonHeaders].take (k + 1)) []))) := by
  obtain ⟨he, _⟩ := found_matches _ _ _ _ _ hf
  obtain ⟨hprot, hpub, _, _⟩ := mux_classes e he
  constructor
  · intro hp
    have hc := hprot.mp hp
    have hex := serve_eq_executor tc mw hb r s e vals _ hf hc
    refine ⟨hex, ?_, (chain_order tc mw hb r s e vals _ hf hc).2⟩
    intro c1 c2 c3 c4 c5 c6 c7 s1 s2 s3 s4 s5 s6 s7 h1 h2 h3 h4 h5 h6 h7
    rw [hex]
    simp [executor, wayIn, wayOut, WayIn.events, h1, h2, h3, h4, h5, h6, h7, protectedChain,
      dynamic, Chain.Append, alice.New]
  · intro hp
    have hc := hpub.mp hp
    have hex := serve_eq_executor tc mw hb r s e vals _ hf hc
    refine ⟨hex, ?_, (chain_order tc mw hb r s e vals _ hf hc).2⟩
    intro c1 c2 c3 c4 c5 c6 s1 s2 s3 s4 s5 s6 h1 h2 h3 h4 h5 h6
    rw [hex]
    simp [executor, wayIn, wayOut, WayIn.events, h1, h2, h3, h4, h5, h6, dynamic, alice.New]

/-- C5 witness: GET `/snippet/create` with the cookie of a logged-in session
is dispatched to the protected registration of that pattern; with the
application's stages as specified no stage answers, the run is the full
order, and the post-logic of the session stage has stored the session and
set the response cookie. -/
theorem pipeline_order_witness :
    mux.findHandler (Request.withCookie "GET" "/snippet/create").host
        (Request.withCookie "GET" "/snippet/create").method
        (Request.withCookie "GET" "/snippet/create").path
      = .found ⟨⟨"GET /snippet/create", "GET", [], [lit "snippet", lit "create"]⟩,
          protectedChain.ThenFunc .snippetCreate⟩ [] ∧
    (serve Toolchain.sample application.sample.middleware application.sample.handlerBody
        (Request.withCookie "GET" "/snippet/create") State.loggedIn).2 =
      [ .enter .recoverPanic, .enter .logRequest, .enter .commonHeaders,
        .router (some "GET /snippet/create"),
        .enter .LoadAndSave, .enter .noSurf, .enter .authenticate,
        .enter .requireAuthentication,
        .handler .snippetCreate,
        .exit .requireAuthentication, .exit .authenticate, .exit .noSurf, .exit .LoadAndSave,
        .exit .commonHeaders, .exit .logRequest, .exit .recoverPanic ] ∧
    (serve Toolchain.sample application.sample.middleware application.sample.handlerBody
        (Request.withCookie "GET" "/snippet/create") State.loggedIn).1.resp.get "Set-Cookie"
      = some "session=c1" ∧
    (serve Toolchain.sample application.sample.middleware application.sample.handlerBody
        (Request.withCookie "GET" "/snippet/create") State.loggedIn).1.sessions
      = [("c1", ⟨some 1, some "T", none⟩)] :=
  ⟨by decide,
    congrArg Prod.snd
      (((pipeline_order Toolchain.sample application.sample.middleware
        application.sample.handlerBody (Request.withCookie "GET" "/snippet/create")
        State.loggedIn
        ⟨⟨"GET /snippet/create", "GET", [], [lit "snippet", lit "create"]⟩,
          protectedChain.ThenFunc .snippetCreate⟩ [] (by decide)).1 (by decide)).2.1
        _ _ _ _ _ _ _ _ _ _ _ _ _ _ rfl rfl rfl rfl rfl rfl rfl),
    by decide, by decide⟩

/-! ## Unwrapped routes -/

/-- Every path below `/static/` matches the pattern path of `GET /static/`. -/
theorem static_prefix_matches (rest : List Char) :
    (matchPath [lit "static", ⟨[], true, true⟩] ("/static/".data ++ rest) []).isSome = true := by
  have hu : pathUnescape ['s', 't', 'a', 't', 'i', 'c'] = ['s', 't', 'a', 't', 'i', 'c'] := by
    decide
  have hf : firstSegment ('/' :: 's' :: 't' :: 'a' :: 't' :: 'i' :: 'c' :: '/' :: rest)
      = (['s', 't', 'a', 't', 'i', 'c'], '/' :: rest) := by
    simp [firstSegment, cutAtSlash, hu]
  show (matchPath [⟨['s', 't', 'a', 't', 'i', 'c'], false, false⟩, ⟨[], true, true⟩]
    ('/' :: 's' :: 't' :: 'a' :: 't' :: 'i' :: 'c' :: '/' :: rest) []).isSome = true
  simp [matchPath, hf]

/-- The wrapped registrations of `routes()` share no path with `/ping` or
with the subtree `/static/`. -/
theorem mux_wrapped_disjoint :
    ∀ e ∈ mux.entries, e.handler.middlewares ≠ [] →
      disjointSegments e.pat.segments [lit "ping"] = true ∧
      disjointSegments e.pat.segments [lit "static", ⟨[], true, true⟩] = true := by
  decide

/-- The two unwrapped registrations of `routes()`. -/
theorem mux_unwrapped :
    ∀ e ∈ mux.entries, e.handler.middlewares = [] →
      (e.pat.str = "/ping" ∧ e.handler = .base .ping) ∨
      (e.pat.str = "GET /static/" ∧ e.handler = .base .fileServerFS) := by
  decide

/-- A request for `/ping` or for a path below `/static/` is answered by the
router itself or handed to an unwrapped terminal handler. -/
theorem unwrapped_route_trace (tc : Toolchain) (mw : Middleware → Stage) (hb : HandlerName → Body)
    (r : Request) (c : Ctx) (s : State)
    (hp : r.path = "/ping".data ∨ "/static/".data <+: r.path) :
    (mux.ServeHTTP tc mw hb r c s).2 = [Event.router none] ∨
    (mux.ServeHTTP tc mw hb r c s).2 = [Event.router (some "/ping"), Event.handler .ping] ∨
    (mux.ServeHTTP tc mw hb r c s).2
      = [Event.router (some "GET /static/"), Event.handler .fileServerFS] := by
  cases hf : mux.findHandler r.host r.method r.path with
  | found e vals =>
    obtain ⟨he, hm⟩ := found_matches _ _ _ _ _ hf
    have hmp : (matchPath e.pat.segments r.path []).isSome = true := by
      simp only [pattern.matches, Bool.and_eq_true] at hm
      rw [← mux_matchesPath r.host r.path e he]
      exact hm.2
    have hmid : e.handler.middlewares = [] := by
      by_contra hne
      obtain ⟨d1, d2⟩ := mux_wrapped_disjoint e he hne
      rcases hp with hp | ⟨rest, hrest⟩
      · have hping : (matchPath [lit "ping"] r.path []).isSome = true := by
          rw [hp]
          decide
        exact matchPath_disjoint _ _ _ _ _ d1 hmp hping
      · have hstat := static_prefix_matches rest
        rw [hrest] at hstat
        exact matchPath_disjoint _ _ _ _ _ d2 hmp hstat
    rw [mux_trace_found tc mw hb r c s e vals hf]
    rcases mux_unwrapped e he hmid with ⟨h1, h2⟩ | ⟨h1, h2⟩
    · exact Or.inr (Or.inl (by rw [h1, h2]; rfl))
    · exact Or.inr (Or.inr (by rw [h1, h2]; rfl))
  | redirect loc => exact Or.inl (mux_trace_none tc mw hb r c s (by rw [hf]; rfl))
  | methodNotAllowed a => exact Or.inl (mux_trace_none tc mw hb r c s (by rw [hf]; rfl))
  | notFound => exact Or.inl (mux_trace_none tc mw hb r c s (by rw [hf]; rfl))

/-- The router's events start with its own. -/
theorem mux_trace_head (tc : Toolchain) (mw : Middleware → Stage) (hb : HandlerName → Body)
    (r : Request) (c : Ctx) (s : State) :
    ∃ sel rest, (mux.ServeHTTP tc mw hb r c s).2 = Event.router sel :: rest := by
  unfold ServeMux.ServeHTTP
  split_ifs
  · exact ⟨_, _, rfl⟩
  · split <;> exact ⟨_, _, rfl⟩

/-- C6: every request given to the handler returned by `routes()` enters
recoverPanic first and leaves it last; the router is reached only through
recoverPanic, then logRequest, then commonHeaders, which return in reverse
order after it, and it is reached whenever these three stages hand the
request on; otherwise the run ends at the standard stage that answered.
Requests for `/ping` and for paths below `/static/` enter none of
LoadAndSave, noSurf, authenticate and requireAuthentication. -/
theorem standard_chain_wraps_every_request (tc : Toolchain) (mw : Middleware → Stage)
    (hb : HandlerName → Body) (r : Request) (s : State) :
    (∃ inner, (serve tc mw hb r s).2 =
      Event.enter .recoverPanic :: inner ++ [Event.exit .recoverPanic]) ∧
    ((∃ c1 s1 sel rest,
        (mux.ServeHTTP tc mw hb r c1 s1).2 = Event.router sel :: rest ∧
        (serve tc mw hb r s).2 =
          [.enter .recoverPanic, .enter .logRequest, .enter .commonHeaders]
            ++ Event.router sel :: rest
            ++ [.exit .commonHeaders, .exit .logRequest, .exit .recoverPanic]) ∨
      (∃ k, k < 3 ∧ (serve tc mw hb r s).2 =
        nested ([.recoverPanic, .logRequest, .commonHeaders].take (k + 1)) [])) ∧
    (((mw .recoverPanic).handsOn ∧ (mw .logRequest).handsOn ∧ (mw .commonHeaders).handsOn) →
      ∃ c1 s1 sel rest,
        (mux.ServeHTTP tc mw hb r c1 s1).2 = Event.router sel :: rest ∧
        (serve tc mw hb r s).2 =
          [.enter .recoverPanic, .enter .logRequest, .enter .commonHeaders]
            ++ Event.router sel :: rest
            ++ [.exit .commonHeaders, .exit .logRequest, .exit .recoverPanic]) ∧
    ((r.path = "/ping".data ∨ "/static/".data <+: r.path) →
      ∀ m ∈ [Middleware.LoadAndSave, .noSurf, .authenticate, .requireAuthentication],
        Event.enter m ∉ (serve tc mw hb r s).2) := by
  have hshape := serve_trace tc mw hb r s
  refine ⟨?_, ?_, ?_, ?_⟩
  · rcases hshape with ⟨c1, s1, h⟩ | ⟨k, hk, h⟩
    · exact ⟨nested [.logRequest, .commonHeaders] (mux.ServeHTTP tc mw hb r c1 s1).2,
        by rw [h]; exact nested_cons _ _ _⟩
    · exact ⟨nested ([Middleware.logRequest, .commonHeaders].take k) [],
        by rw [h]; exact nested_cons _ _ _⟩
  · rcases hshape with ⟨c1, s1, h⟩ | h
    · obtain ⟨sel, rest, hr⟩ := mux_trace_head tc mw hb r c1 s1
      exact Or.inl ⟨c1, s1, sel, rest, hr, by rw [h, hr]; simp [nested, standard, alice.New]⟩
    · exact Or.inr h
  · rintro ⟨h1, h2, h3⟩
    have hon : ∀ m ∈ standard.constructors, (mw m).handsOn := by
      intro m hm
      simp only [standard, alice.New, List.nil_append, List.mem_cons, List.mem_singleton,
        List.not_mem_nil, or_false] at hm
      rcases hm with rfl | rfl | rfl
      · exact h1
      · exact h2
      · exact h3
    obtain ⟨c1, s1, h⟩ := serve_trace_full tc mw hb r s hon
    obtain ⟨sel, rest, hr⟩ := mux_trace_head tc mw hb r c1 s1
    exact ⟨c1, s1, sel, rest, hr, by rw [h, hr]; simp [nested, standard, alice.New]⟩
  · intro hp m hm
    rcases hshape with ⟨c1, s1, h⟩ | ⟨k, hk, h⟩
    · rw [h]
      rcases unwrapped_route_trace tc mw hb r c1 s1 hp with h2 | h2 | h2 <;> rw [h2] <;>
        simp only [List.mem_cons, List.mem_singleton, List.not_mem_nil, or_false] at hm <;>
        rcases hm with rfl | rfl | rfl | rfl <;>
        simp [nested, standard, alice.New]
    · rw [h]
      simp only [List.mem_cons, List.mem_singleton, List.not_mem_nil, or_false] at hm
      interval_cases k <;> rcases hm with rfl | rfl | rfl | rfl <;>
        simp [nested, standard, alice.New]

/-! ## Paths that match nothing, paths that match one pattern -/

/-- The canonical path of a clean path is the path. -/
theorem canonical_of_clean (method : String) (path : List Char) (h : cleanPath path = path) :
    canonical method path = path := by
  unfold canonical
  split_ifs
  · rfl
  · exact h

/-- A clean path with a trailing slash that no pattern path of `routes()`
matches is answered 404, whatever the method. -/
theorem findHandler_notFound_of (host : List Char) (method : String) (path : List Char)
    (hclean : cleanPath path = path) (hslash : path.getLast? = some '/')
    (hno : ∀ e ∈ mux.entries, (matchPath e.pat.segments path []).isSome = false) :
    mux.findHandler host method path = .notFound := by
  have hcan := canonical_of_clean method path hclean
  have hs := findHandler_spec mux host method path
  cases hf : mux.findHandler host method path with
  | found e vals =>
    obtain ⟨he, hm⟩ := found_matches _ _ _ _ _ hf
    simp only [pattern.matches, Bool.and_eq_true] at hm
    have := hm.2
    rw [mux_matchesPath host path e he, hno e he] at this
    exact absurd this (by decide)
  | redirect loc =>
    rw [hf] at hs
    rcases hs with h | h
    · exact absurd hclean h.2.2
    · rw [hcan] at h
      exact absurd hslash h.2.1
  | methodNotAllowed a =>
    rw [hf] at hs
    obtain ⟨_, hal, hne⟩ := hs
    exfalso
    apply hne
    rw [hal, hcan, matchingMethods_eq_nil_iff]
    intro e he _
    refine ⟨?_, fun h => absurd hslash h⟩
    rw [mux_matchesPath host path e he, hno e he]
  | notFound => rfl

/-- A clean path matched by a registration of `routes()` whose pattern does
not end in a multi wildcard selects that registration. -/
theorem findHandler_found_of (host : List Char) (method : String) (path : List Char)
    (e : Entry (Wrapped HandlerName)) (he : e ∈ mux.entries)
    (hm : e.pat.matches host method path = true) (hclean : cleanPath path = path)
    (hex : e.pat.lastSegment.multi = false) :
    mux.findHandler host method path
      = .found e ((matchPath e.pat.segments path []).getD []) := by
  have hcan := canonical_of_clean method path hclean
  have hmatch := mux_match_of_matches host method path e he hm
  have hs := findHandler_spec mux host method path
  cases hf : mux.findHandler host method path with
  | found e1 vals =>
    rw [hf] at hs
    rw [hcan, hmatch] at hs
    simp only [Option.some.injEq, Prod.mk.injEq] at hs
    obtain ⟨⟨h1, h2⟩, _⟩ := hs
    subst h1
    rw [h2]
  | redirect loc =>
    rw [hf] at hs
    rcases hs with h | h
    · exact absurd hclean h.2.2
    · rw [hcan, hmatch] at h
      have := h.2.2.2
      simp [exactMatch, hex] at this
  | methodNotAllowed a =>
    rw [hf] at hs
    rw [hcan, hmatch] at hs
    simp at hs
  | notFound =>
    rw [hf] at hs
    rw [hcan, hmatch] at hs
    simp at hs

/-- A segment without a slash is cut whole. -/
theorem cutAtSlash_of_not_mem (id : List Char) (h : '/' ∉ id) : cutAtSlash id = (id, []) := by
  induction id with
  | nil => rfl
  | cons c cs ih =>
    simp only [List.mem_cons, not_or] at h
    have hc : c ≠ '/' := fun hh => h.1 hh.symm
    simp [cutAtSlash, hc, ih h.2]

/-- The wildcard of `GET /snippet/view/{id}` takes one non-empty segment:
a path `/snippet/view/` followed by a non-empty text without a slash (and
not the escaped slash) matches, with the decoded text as the value of `id`. -/
theorem snippet_view_wildcard (id : List Char) (hne : id ≠ []) (hsl : '/' ∉ id)
    (hesc : pathUnescape id ≠ ['/']) :
    matchPath [lit "snippet", lit "view", ⟨"id".data, true, false⟩]
      ("/snippet/view/".data ++ id) [] = some [pathUnescape id] := by
  have hu1 : pathUnescape ['s', 'n', 'i', 'p', 'p', 'e', 't'] = ['s', 'n', 'i', 'p', 'p', 'e', 't'] := by
    decide
  have hu2 : pathUnescape ['v', 'i', 'e', 'w'] = ['v', 'i', 'e', 'w'] := by decide
  have hf1 : firstSegment ('/' :: 's' :: 'n' :: 'i' :: 'p' :: 'p' :: 'e' :: 't' :: '/' :: 'v' ::
      'i' :: 'e' :: 'w' :: '/' :: id)
      = (['s', 'n', 'i', 'p', 'p', 'e', 't'], '/' :: 'v' :: 'i' :: 'e' :: 'w' :: '/' :: id) := by
    simp [firstSegment, cutAtSlash, hu1]
  have hf2 : firstSegment ('/' :: 'v' :: 'i' :: 'e' :: 'w' :: '/' :: id)
      = (['v', 'i', 'e', 'w'], '/' :: id) := by
    simp [firstSegment, cutAtSlash, hu2]
  have hf3 : firstSegment ('/' :: id) = (pathUnescape id, []) := by
    simp [firstSegment, hne, cutAtSlash_of_not_mem id hsl]
  show matchPath [⟨['s', 'n', 'i', 'p', 'p', 'e', 't'], false, false⟩,
      ⟨['v', 'i', 'e', 'w'], false, false⟩, ⟨['i', 'd'], true, false⟩]
    ('/' :: 's' :: 'n' :: 'i' :: 'p' :: 'p' :: 'e' :: 't' :: '/' :: 'v' ::
      'i' :: 'e' :: 'w' :: '/' :: id) [] = some [pathUnescape id]
  simp [matchPath, hf1, hf2, hf3, hesc]

/-- C9: the path `/snippet/view/`, with an empty id segment, matches no
registered pattern (the wildcard of `GET /snippet/view/{id}` takes one
non-empty segment, and does match every such segment); the router answers
404 and no handler, `snippetView` included, is invoked. -/
theorem empty_snippet_id_not_found (tc : Toolchain) (mw : Middleware → Stage) (hb : HandlerName → Body)
    (r : Request) (s : State) (hp : r.path = "/snippet/view/".data) :
    (∀ e ∈ mux.entries, e.pat.matchesPath r.host r.path = false) ∧
    mux.findHandler r.host r.method r.path = .notFound ∧
    (∀ c1 s1, (mux.ServeHTTP tc mw hb r c1 s1).1.resp.status = 404 ∧
      (mux.ServeHTTP tc mw hb r c1 s1).2 = [Event.router none]) ∧
    (∀ h, Event.handler h ∉ (serve tc mw hb r s).2) ∧
    (∀ id : List Char, id ≠ [] → '/' ∉ id → pathUnescape id ≠ ['/'] →
      matchPath [lit "snippet", lit "view", ⟨"id".data, true, false⟩]
        ("/snippet/view/".data ++ id) [] = some [pathUnescape id]) := by
  have hno : ∀ e ∈ mux.entries,
      (matchPath e.pat.segments "/snippet/view/".data []).isSome = false := by decide
  have hnf : mux.findHandler r.host r.method r.path = .notFound := by
    rw [hp]
    exact findHandler_notFound_of r.host r.method _ (by decide) (by decide) hno
  have hstar : r.path ≠ ['*'] := by
    rw [hp]
    decide
  have hmux : ∀ c1 s1, (mux.ServeHTTP tc mw hb r c1 s1).1.resp.status = 404 ∧
      (mux.ServeHTTP tc mw hb r c1 s1).2 = [Event.router none] := by
    intro c1 s1
    simp [ServeMux.ServeHTTP, hstar, hnf, Response.error]
  refine ⟨?_, hnf, hmux, ?_, snippet_view_wildcard⟩
  · intro e he
    rw [mux_matchesPath r.host r.path e he, hp]
    exact hno e he
  · intro h
    rcases serve_trace tc mw hb r s with ⟨c1, s1, htr⟩ | ⟨k, hk, htr⟩
    · rw [htr, (hmux c1 s1).2]
      simp [nested, standard, alice.New]
    · rw [htr]
      interval_cases k <;> simp [nested, standard, alice.New]

/-- C9 witness: GET `/snippet/view/` is not found. -/
theorem empty_snippet_id_not_found_witness :
    (Request.simple "GET" "/snippet/view/").path = "/snippet/view/".data ∧
    mux.findHandler [] "GET" "/snippet/view/".data = .notFound ∧
    (∀ h, Event.handler h ∉ (serve Toolchain.sample (fun _ => Stage.pass) (fun _ _ _ s => s)
      (Request.simple "GET" "/snippet/view/") State.initial).2) :=
  ⟨rfl,
    (empty_snippet_id_not_found Toolchain.sample (fun _ => Stage.pass) (fun _ _ _ s => s)
      (Request.simple "GET" "/snippet/view/") State.initial rfl).2.1,
    (empty_snippet_id_not_found Toolchain.sample (fun _ => Stage.pass) (fun _ _ _ s => s)
      (Request.simple "GET" "/snippet/view/") State.initial rfl).2.2.2.1⟩

/-- A request for `/ping` selects the ping registration, whatever its
method and host. -/
theorem findHandler_ping (host : List Char) (method : String) :
    mux.findHandler host method "/ping".data
      = .found ⟨⟨"/ping", "", [], [lit "ping"]⟩, .base .ping⟩ [] := by
  have hmem : (⟨⟨"/ping", "", [], [lit "ping"]⟩, .base .ping⟩ : Entry (Wrapped HandlerName))
      ∈ mux.entries := by decide
  have h := findHandler_found_of host method "/ping".data _ hmem
    (by
      have hseg : (matchPath [lit "ping"] "/ping".data []).isSome = true := by decide
      simp [pattern.matches, pattern.matchMethod, pattern.matchesPath, pattern.matchHost, hseg])
    (by decide) (by decide)
  rw [h]
  have hv : (matchPath [lit "ping"] "/ping".data []).getD [] = [] := by decide
  rw [hv]

/-- C10: `/ping` is the only registration of `routes()` without a method.
A request for `/ping` with any method is dispatched to the ping handler: it
is never answered 405 and never enters `noSurf`.  Every other registration
matches only requests with the method of its pattern, a GET pattern also
those with HEAD. -/
theorem ping_serves_every_method (tc : Toolchain) (mw : Middleware → Stage) (hb : HandlerName → Body)
    (r : Request) (s : State) (hp : r.path = "/ping".data) :
    mux.findHandler r.host r.method r.path
      = .found ⟨⟨"/ping", "", [], [lit "ping"]⟩, .base .ping⟩ [] ∧
    (∀ allow, mux.findHandler r.host r.method r.path ≠ .methodNotAllowed allow) ∧
    (∀ c1 s1, (mux.ServeHTTP tc mw hb r c1 s1).2 = [.router (some "/ping"), .handler .ping]) ∧
    Event.enter .noSurf ∉ (serve tc mw hb r s).2 ∧
    (∀ e ∈ mux.entries, e.pat.method = "" ↔ e.pat.str = "/ping") ∧
    (∀ e ∈ mux.entries, e.pat.str ≠ "/ping" →
      ∀ (host : List Char) (method : String) (path : List Char),
        e.pat.matches host method path = true →
          method = e.pat.method ∨ (e.pat.method = "GET" ∧ method = "HEAD")) ∧
    (∀ e ∈ mux.entries, e.pat.method = "GET" →
      ∀ (host path : List Char), e.pat.matches host "HEAD" path = e.pat.matches host "GET" path) := by
  have hmeth : ∀ e ∈ mux.entries, e.pat.method = "" ↔ e.pat.str = "/ping" := by decide
  have hfound : mux.findHandler r.host r.method r.path
      = .found ⟨⟨"/ping", "", [], [lit "ping"]⟩, .base .ping⟩ [] := by
    rw [hp]
    exact findHandler_ping r.host r.method
  have hmux : ∀ c1 s1, (mux.ServeHTTP tc mw hb r c1 s1).2
      = [.router (some "/ping"), .handler .ping] := by
    intro c1 s1
    rw [mux_trace_found tc mw hb r c1 s1 _ _ hfound]
    rfl
  refine ⟨hfound, ?_, hmux, ?_, hmeth, ?_, ?_⟩
  · intro allow h
    rw [hfound] at h
    exact Outcome.noConfusion h
  · rcases serve_trace tc mw hb r s with ⟨c1, s1, htr⟩ | ⟨k, hk, htr⟩
    · rw [htr, hmux c1 s1]
      simp [nested, standard, alice.New]
    · rw [htr]
      interval_cases k <;> simp [nested, standard, alice.New]
  · intro e he hne host method path hm
    have hm0 : e.pat.method ≠ "" := fun h => hne ((hmeth e he).mp h)
    simp only [pattern.matches, pattern.matchMethod, Bool.and_eq_true, Bool.or_eq_true,
      decide_eq_true_eq] at hm
    rcases hm.1 with (h | h) | h
    · exact absurd h hm0
    · exact Or.inl h.symm
    · exact Or.inr h
  · intro e _ hg host path
    simp [pattern.matches, pattern.matchMethod, hg]

/-- C10 witness: POST `/ping` is dispatched to the ping handler. -/
theorem ping_serves_every_method_witness :
    (Request.simple "POST" "/ping").path = "/ping".data ∧
    mux.findHandler [] "POST" "/ping".data
      = .found ⟨⟨"/ping", "", [], [lit "ping"]⟩, .base .ping⟩ [] ∧
    Event.enter .noSurf ∉ (serve Toolchain.sample (fun _ => Stage.pass) (fun _ _ _ s => s)
      (Request.simple "POST" "/ping") State.initial).2 :=
  ⟨rfl,
    (ping_serves_every_method Toolchain.sample (fun _ => Stage.pass) (fun _ _ _ s => s)
      (Request.simple "POST" "/ping") State.initial rfl).1,
    (ping_serves_every_method Toolchain.sample (fun _ => Stage.pass) (fun _ _ _ s => s)
      (Request.simple "POST" "/ping") State.initial rfl).2.2.2.1⟩

/-! ## The application's pipeline (middleware and handlers as specified) -/

/-- A header that was just set is read back. -/
theorem Response.get_set (w : Response) (key value : String) :
    (w.set key value).get key = some value := by
  unfold Response.get Response.set
  simp only
  rw [List.find?_append]
  have h : (w.header.filter (fun kv => decide (kv.1 ≠ key))).find? (fun kv => decide (kv.1 = key))
      = none := by
    rw [List.find?_eq_none]
    intro x hx
    have := (List.mem_filter.mp hx).2
    simpa using this
  rw [h]
  simp

/-- The standard stages of the application hand every request to the
router and return its result unchanged. -/
theorem app_serve_eq (app : application) (r : Request) (s : State) :
    app.serve r s =
      ((mux.ServeHTTP app.toolchain app.middleware app.handlerBody r Ctx.empty (app.atRouter r s)).1,
        [.enter .recoverPanic, .enter .logRequest, .enter .commonHeaders]
          ++ (mux.ServeHTTP app.toolchain app.middleware app.handlerBody r Ctx.empty (app.atRouter r s)).2
          ++ [.exit .commonHeaders, .exit .logRequest, .exit .recoverPanic]) := by
  simp [application.serve, serve, routes_eq, Wrapped.ServeHTTP, application.middleware,
    recoverPanic, logRequest, commonHeaders, application.atRouter]

/-- The standard stages of the application, as specified, hand every
request on. -/
theorem app_standard_handsOn (app : application) :
    (app.middleware .recoverPanic).handsOn ∧ (app.middleware .logRequest).handsOn ∧
      (app.middleware .commonHeaders).handsOn :=
  ⟨fun _ c s => ⟨c, s, rfl⟩, fun _ c _ => ⟨c, _, rfl⟩, fun _ c _ => ⟨c, _, rfl⟩⟩

/-- The answer of the router is the answer of the application when the
router selects no registration: the standard stages, as specified, leave
the status untouched. -/
theorem app_router_status (app : application) (r : Request) (s : State) :
    (app.serve r s).1.resp.status =
      (mux.ServeHTTP app.toolchain app.middleware app.handlerBody r Ctx.empty (app.atRouter r s)).1.resp.status := by
  rw [app_serve_eq]

/-- The session stage always hands on, with the designated session loaded. -/
theorem LoadAndSave_pre (app : application) (r : Request) (c : Ctx) (s : State) :
    (LoadAndSave app).pre r c s = .next c { s with session := loadSession s r } := rfl

/-- The CSRF guard answers 400 to a POST without the session's token and
hands every other request on unchanged. -/
theorem noSurf_pre (r : Request) (c : Ctx) (s : State) :
    noSurf.pre r c s =
      if r.method = "POST" ∧ csrfValid r s.session = false then
        .respond { s with resp := s.resp.error "Bad Request" 400 }
      else .next c s := by
  simp [noSurf]

/-- The enricher always hands on, with the authentication fact attached. -/
theorem authenticate_pre (r : Request) (c : Ctx) (s : State) :
    authenticate.pre r c s =
      .next { c with isAuthenticated :=
        match s.session.authenticatedUserID with
        | some id => decide (id ∈ s.users)
        | none => false } s := by
  unfold authenticate
  cases h : s.session.authenticatedUserID <;> simp [h]

/-- The gate hands an authenticated request on and redirects any other. -/
theorem requireAuthentication_pre (r : Request) (c : Ctx) (s : State) :
    requireAuthentication.pre r c s =
      if c.isAuthenticated = true then .next c s
      else .respond { s with resp := s.resp.redirect "/user/login" 303 } := rfl

/-- The run of the dynamic stages of the application up to the CSRF guard:
a POST without the session's token is answered 400 by `noSurf`. -/
theorem app_csrf_rejected (app : application) (r : Request) (c : Ctx) (s : State)
    (next : Wrapped HandlerName)
    (hcs : r.method = "POST" ∧ csrfValid r (loadSession s r) = false) :
    (Wrapped.wrap .LoadAndSave (.wrap .noSurf next)).ServeHTTP app.middleware
        (terminal app.handlerBody) r c s =
      ((LoadAndSave app).post r c
          { s with session := loadSession s r, resp := s.resp.error "Bad Request" 400 },
        [.enter .LoadAndSave, .enter .noSurf, .exit .noSurf, .exit .LoadAndSave]) := by
  simp only [Wrapped.ServeHTTP, application.middleware, LoadAndSave_pre, noSurf_pre]
  rw [if_pos hcs]
  rfl

/-- The run of the dynamic stages of the application for a request that
passes the CSRF guard: the rest of the chain runs with the authentication
fact attached. -/
theorem app_csrf_passed (app : application) (r : Request) (c : Ctx) (s : State)
    (next : Wrapped HandlerName)
    (hcs : ¬ (r.method = "POST" ∧ csrfValid r (loadSession s r) = false)) :
    (Wrapped.wrap .LoadAndSave (.wrap .noSurf (.wrap .authenticate next))).ServeHTTP
        app.middleware (terminal app.handlerBody) r c s =
      ((LoadAndSave app).post r c
          (next.ServeHTTP app.middleware (terminal app.handlerBody) r
            { c with isAuthenticated := authenticated s r }
            { s with session := loadSession s r }).1,
        [.enter .LoadAndSave, .enter .noSurf, .enter .authenticate]
          ++ (next.ServeHTTP app.middleware (terminal app.handlerBody) r
            { c with isAuthenticated := authenticated s r }
            { s with session := loadSession s r }).2
          ++ [.exit .authenticate, .exit .noSurf, .exit .LoadAndSave]) := by
  simp only [Wrapped.ServeHTTP, application.middleware, LoadAndSave_pre, noSurf_pre,
    authenticate_pre]
  rw [if_neg hcs]
  simp [noSurf, authenticate, authenticated]

/-- The run of the protected stages of the application for a request that
passes the CSRF guard and carries no authenticated identity: the gate
answers 303 to the login page. -/
theorem app_gate_redirects (app : application) (r : Request) (c : Ctx) (s : State)
    (h : HandlerName)
    (hcs : ¬ (r.method = "POST" ∧ csrfValid r (loadSession s r) = false))
    (hun : authenticated s r = false) :
    (Wrapped.wrap .LoadAndSave (.wrap .noSurf (.wrap .authenticate
        (.wrap .requireAuthentication (.base h))))).ServeHTTP app.middleware
        (terminal app.handlerBody) r c s =
      ((LoadAndSave app).post r c
          { s with session := loadSession s r, resp := s.resp.redirect "/user/login" 303 },
        [.enter .LoadAndSave, .enter .noSurf, .enter .authenticate,
          .enter .requireAuthentication, .exit .requireAuthentication,
          .exit .authenticate, .exit .noSurf, .exit .LoadAndSave]) := by
  rw [app_csrf_passed app r c s _ hcs, hun]
  simp [Wrapped.ServeHTTP, application.middleware, requireAuthentication_pre, authenticate, noSurf]

/-- C1, as amended: a request that carries no authenticated identity and is
dispatched to a registration on the protected chain never reaches the
terminal handler; it is answered 303 See Other with Location `/user/login`
by the authorization gate, unless it is a POST whose CSRF token is absent or
differs from the session's, which the CSRF guard answers 400 Bad Request
before the gate is entered. -/
theorem unauthenticated_protected_request (app : application) (r : Request) (s : State)
    (e : Entry (Wrapped HandlerName)) (vals : List (List Char))
    (hf : mux.findHandler r.host r.method r.path = .found e vals)
    (hp : e.pat.str ∈ protectedPatterns)
    (hun : authenticated s r = false) :
    (∀ h, Event.handler h ∉ (app.serve r s).2) ∧
    (¬ (r.method = "POST" ∧ csrfValid r (loadSession s r) = false) →
      (app.serve r s).1.resp.status = 303 ∧
      (app.serve r s).1.resp.get "Location" = some "/user/login" ∧
      (app.serve r s).2 =
        [ .enter .recoverPanic, .enter .logRequest, .enter .commonHeaders,
          .router (some e.pat.str),
          .enter .LoadAndSave, .enter .noSurf, .enter .authenticate,
          .enter .requireAuthentication, .exit .requireAuthentication,
          .exit .authenticate, .exit .noSurf, .exit .LoadAndSave,
          .exit .commonHeaders, .exit .logRequest, .exit .recoverPanic ]) ∧
    ((r.method = "POST" ∧ csrfValid r (loadSession s r) = false) →
      (app.serve r s).1.resp.status = 400 ∧
      (app.serve r s).2 =
        [ .enter .recoverPanic, .enter .logRequest, .enter .commonHeaders,
          .router (some e.pat.str),
          .enter .LoadAndSave, .enter .noSurf, .exit .noSurf, .exit .LoadAndSave,
          .exit .commonHeaders, .exit .logRequest, .exit .recoverPanic ]) := by
  obtain ⟨he, _⟩ := found_matches _ _ _ _ _ hf
  have hstar := found_not_star _ _ _ _ _ hf
  have hform := protected_handler e he hp
  have hmux : mux.ServeHTTP app.toolchain app.middleware app.handlerBody r Ctx.empty (app.atRouter r s) =
      ((e.handler.ServeHTTP app.middleware (terminal app.handlerBody) r
          { Ctx.empty with pattern := e.pat.str, pathValues := vals } (app.atRouter r s)).1,
        Event.router (some e.pat.str) ::
          (e.handler.ServeHTTP app.middleware (terminal app.handlerBody) r
            { Ctx.empty with pattern := e.pat.str, pathValues := vals } (app.atRouter r s)).2) := by
    simp [ServeMux.ServeHTTP, hstar, hf]
  have hload : loadSession (app.atRouter r s) r = loadSession s r := rfl
  have hauth : authenticated (app.atRouter r s) r = authenticated s r := rfl
  rw [app_serve_eq, hmux, hform]
  by_cases hcs : r.method = "POST" ∧ csrfValid r (loadSession s r) = false
  · rw [app_csrf_rejected app r _ _ _ (by rw [hload]; exact hcs)]
    refine ⟨?_, fun h => absurd hcs h, fun _ => ?_⟩
    · intro h
      simp
    · simp [LoadAndSave, Response.error, Response.set]
  · rw [app_gate_redirects app r _ _ _ (by rw [hload]; exact hcs) (by rw [hauth]; exact hun)]
    refine ⟨?_, fun _ => ?_, fun h => absurd h hcs⟩
    · intro h
      simp
    · refine ⟨?_, ?_, ?_⟩
      · simp [LoadAndSave, Response.redirect, Response.set]
      · simp only [LoadAndSave, Response.redirect]
        have hg := Response.get_set (app.atRouter r s).resp "Location" "/user/login"
        unfold Response.get at hg ⊢
        simp only
        rw [List.find?_append]
        cases hfind : List.find? (fun kv => decide (kv.1 = "Location"))
            ((app.atRouter r s).resp.set "Location" "/user/login").header with
        | none =>
          rw [hfind] at hg
          simp at hg
        | some x =>
          rw [hfind] at hg
          simpa using hg
      · simp

/-- C1 witness: GET `/snippet/create` without a session; the gate redirects
to the login page. -/
theorem unauthenticated_protected_request_witness :
    mux.findHandler [] "GET" "/snippet/create".data
      = .found ⟨⟨"GET /snippet/create", "GET", [], [lit "snippet", lit "create"]⟩,
          protectedChain.ThenFunc .snippetCreate⟩ [] ∧
    authenticated State.initial (Request.simple "GET" "/snippet/create") = false ∧
    (application.sample.serve (Request.simple "GET" "/snippet/create")
      State.initial).1.resp.status = 303 ∧
    (application.sample.serve (Request.simple "GET" "/snippet/create")
      State.initial).1.resp.get "Location" = some "/user/login" :=
  ⟨by decide, by decide,
    ((unauthenticated_protected_request application.sample
      (Request.simple "GET" "/snippet/create") State.initial
      ⟨⟨"GET /snippet/create", "GET", [], [lit "snippet", lit "create"]⟩,
        protectedChain.ThenFunc .snippetCreate⟩ [] (by decide) (by decide) (by decide)).2.1
      (by decide)).1,
    ((unauthenticated_protected_request application.sample
      (Request.simple "GET" "/snippet/create") State.initial
      ⟨⟨"GET /snippet/create", "GET", [], [lit "snippet", lit "create"]⟩,
        protectedChain.ThenFunc .snippetCreate⟩ [] (by decide) (by decide) (by decide)).2.1
      (by decide)).2.1⟩

/-- C1 as stated fails: POST `/snippet/create` without a session and without
a CSRF token carries no authenticated identity and matches a registration
on the protected chain, yet the response is 400 Bad Request without a
Location header, not 303. -/
theorem unauthenticated_post_without_token_is_400 :
    authenticated State.initial (Request.simple "POST" "/snippet/create") = false ∧
    (mux.findHandler [] "POST" "/snippet/create".data).selected
      = some ⟨⟨"POST /snippet/create", "POST", [], [lit "snippet", lit "create"]⟩,
          protectedChain.ThenFunc .snippetCreatePost⟩ ∧
    "POST /snippet/create" ∈ protectedPatterns ∧
    (application.sample.serve (Request.simple "POST" "/snippet/create")
      State.initial).1.resp.status = 400 ∧
    (application.sample.serve (Request.simple "POST" "/snippet/create")
      State.initial).1.resp.get "Location" = none := by
  decide

/-- C2: a POST request dispatched to a registration on the dynamic or the
protected chain whose CSRF token is absent or differs from the token bound
to its session is answered 400 Bad Request by the CSRF guard; neither the
authorization gate nor any terminal handler is entered.  Nothing is assumed
about the authentication state. -/
theorem bad_csrf_token_rejected (app : application) (r : Request) (s : State)
    (e : Entry (Wrapped HandlerName)) (vals : List (List Char))
    (hf : mux.findHandler r.host r.method r.path = .found e vals)
    (hp : e.pat.str ∈ publicPatterns ∨ e.pat.str ∈ protectedPatterns)
    (hpost : r.method = "POST")
    (hbad : r.csrfToken = none ∨ r.csrfToken ≠ (loadSession s r).csrfToken) :
    (app.serve r s).1.resp.status = 400 ∧
    (app.serve r s).2 =
      [ .enter .recoverPanic, .enter .logRequest, .enter .commonHeaders,
        .router (some e.pat.str),
        .enter .LoadAndSave, .enter .noSurf, .exit .noSurf, .exit .LoadAndSave,
        .exit .commonHeaders, .exit .logRequest, .exit .recoverPanic ] ∧
    Event.enter .requireAuthentication ∉ (app.serve r s).2 ∧
    (∀ h, Event.handler h ∉ (app.serve r s).2) := by
  obtain ⟨he, _⟩ := found_matches _ _ _ _ _ hf
  have hstar := found_not_star _ _ _ _ _ hf
  have hform : ∃ next, e.handler = .wrap .LoadAndSave (.wrap .noSurf next) := by
    rcases hp with hp | hp
    · exact ⟨_, public_handler e he hp⟩
    · exact ⟨_, protected_handler e he hp⟩
  obtain ⟨next, hform⟩ := hform
  have hmux : mux.ServeHTTP app.toolchain app.middleware app.handlerBody r Ctx.empty (app.atRouter r s) =
      ((e.handler.ServeHTTP app.middleware (terminal app.handlerBody) r
          { Ctx.empty with pattern := e.pat.str, pathValues := vals } (app.atRouter r s)).1,
        Event.router (some e.pat.str) ::
          (e.handler.ServeHTTP app.middleware (terminal app.handlerBody) r
            { Ctx.empty with pattern := e.pat.str, pathValues := vals } (app.atRouter r s)).2) := by
    simp [ServeMux.ServeHTTP, hstar, hf]
  have hload : loadSession (app.atRouter r s) r = loadSession s r := rfl
  have hcs : r.method = "POST" ∧ csrfValid r (loadSession s r) = false := by
    refine ⟨hpost, ?_⟩
    unfold csrfValid
    rcases hbad with h | h
    · simp [h]
    · simp [h]
  rw [app_serve_eq, hmux, hform,
    app_csrf_rejected app r _ _ _ (by rw [hload]; exact hcs)]
  refine ⟨?_, ?_, ?_, ?_⟩
  · simp [LoadAndSave, Response.error, Response.set]
  · simp
  · simp
  · intro h
    simp

/-- C2 witness: the signup form posted with the token `wrongToken` and no
session is rejected with 400, and so is a snippet posted with the token
`wrongToken` by the logged-in user of the session `c1`. -/
theorem bad_csrf_token_rejected_witness :
    mux.findHandler [] "POST" "/user/signup".data
      = .found ⟨⟨"POST /user/signup", "POST", [], [lit "user", lit "signup"]⟩,
          dynamic.ThenFunc .userSignupPost⟩ [] ∧
    (application.sample.serve
      ⟨"POST", [], "/user/signup".data, "HTTP/1.1", "", none, some "wrongToken", []⟩
      State.initial).1.resp.status = 400 ∧
    authenticated State.loggedIn
      ⟨"POST", [], "/snippet/create".data, "HTTP/1.1", "", some "c1", some "wrongToken", []⟩
      = true ∧
    (application.sample.serve
      ⟨"POST", [], "/snippet/create".data, "HTTP/1.1", "", some "c1", some "wrongToken", []⟩
      State.loggedIn).1.resp.status = 400 :=
  ⟨by decide,
    (bad_csrf_token_rejected application.sample
      ⟨"POST", [], "/user/signup".data, "HTTP/1.1", "", none, some "wrongToken", []⟩
      State.initial
      ⟨⟨"POST /user/signup", "POST", [], [lit "user", lit "signup"]⟩,
        dynamic.ThenFunc .userSignupPost⟩ [] (by decide) (by decide) (by decide)
      (by decide)).1,
    by decide,
    (bad_csrf_token_rejected application.sample
      ⟨"POST", [], "/snippet/create".data, "HTTP/1.1", "", some "c1", some "wrongToken", []⟩
      State.loggedIn
      ⟨⟨"POST /snippet/create", "POST", [], [lit "snippet", lit "create"]⟩,
        protectedChain.ThenFunc .snippetCreatePost⟩ [] (by decide) (by decide) (by decide)
      (by decide)).1⟩

/-- The response of the application to a request for `/ping`, from any
state: status 200, the fixed headers, body `OK`, written by the ping
handler. -/
theorem app_ping_response (app : application) (r : Request) (s : State)
    (hp : r.path = "/ping".data) :
    (app.serve r s).1.resp =
      { status := 200,
        header := (app.securityHeaders.foldl (fun w kv => w.set kv.1 kv.2)
          Response.fresh).header,
        body := "OK" } ∧
    (app.serve r s).2 =
      [ .enter .recoverPanic, .enter .logRequest, .enter .commonHeaders,
        .router (some "/ping"), .handler .ping,
        .exit .commonHeaders, .exit .logRequest, .exit .recoverPanic ] := by
  have hf : mux.findHandler r.host r.method r.path
      = .found ⟨⟨"/ping", "", [], [lit "ping"]⟩, .base .ping⟩ [] := by
    rw [hp]
    exact findHandler_ping r.host r.method
  have hstar := found_not_star _ _ _ _ _ hf
  have hst : ∀ (w : Response), (app.securityHeaders.foldl (fun w kv => w.set kv.1 kv.2) w).status
      = w.status ∧
      (app.securityHeaders.foldl (fun w kv => w.set kv.1 kv.2) w).body = w.body := by
    generalize app.securityHeaders = l
    induction l with
    | nil => intro w; exact ⟨rfl, rfl⟩
    | cons x xs ih =>
      intro w
      simp only [List.foldl]
      exact ⟨(ih _).1, (ih _).2⟩
  rw [app_serve_eq]
  constructor
  · simp only [ServeMux.ServeHTTP, hstar, hf, if_false, Wrapped.ServeHTTP, terminal,
      application.handlerBody, ping, application.atRouter]
    have h1 := (hst Response.fresh).1
    have h2 := (hst Response.fresh).2
    generalize app.securityHeaders.foldl (fun w kv => w.set kv.1 kv.2) Response.fresh = w at h1 h2
    cases w
    simp only [Response.fresh] at h1 h2
    simp [h1, h2]
  · simp [ServeMux.ServeHTTP, hstar, hf, Wrapped.ServeHTTP, terminal]

/-- C8: after every history of requests, from every initial state (any
sessions, cookies and users), a request for `/ping` (GET included) is
dispatched to the ping handler and answered with status 200 and body `OK`;
two such requests made after different histories get the same response. -/
theorem ping_after_any_history (app : application) (s0 : State)
    (history1 history2 : List Request) (r1 r2 : Request)
    (h1 : r1.method = "GET" ∧ r1.path = "/ping".data)
    (h2 : r2.method = "GET" ∧ r2.path = "/ping".data) :
    (app.serve r1 (app.serveAll history1 s0)).1.resp.status = 200 ∧
    (app.serve r1 (app.serveAll history1 s0)).1.resp.body = "OK" ∧
    Event.handler .ping ∈ (app.serve r1 (app.serveAll history1 s0)).2 ∧
    (app.serve r1 (app.serveAll history1 s0)).1.resp
      = (app.serve r2 (app.serveAll history2 s0)).1.resp := by
  obtain ⟨e1, t1⟩ := app_ping_response app r1 (app.serveAll history1 s0) h1.2
  obtain ⟨e2, _⟩ := app_ping_response app r2 (app.serveAll history2 s0) h2.2
  refine ⟨by rw [e1], by rw [e1], by rw [t1]; simp, by rw [e1, e2]⟩

/-- C8 witness: GET `/ping` after a login attempt and after no request at
all. -/
theorem ping_after_any_history_witness :
    (Request.simple "GET" "/ping").method = "GET" ∧
    (Request.simple "GET" "/ping").path = "/ping".data ∧
    (application.sample.serve (Request.simple "GET" "/ping")
      (application.sample.serveAll [Request.simple "POST" "/user/login"]
        State.initial)).1.resp.status = 200 ∧
    (application.sample.serve (Request.simple "GET" "/ping")
      (application.sample.serveAll [Request.simple "POST" "/user/login"] State.initial)).1.resp
      = (application.sample.serve (Request.simple "GET" "/ping")
        (application.sample.serveAll [] State.initial)).1.resp :=
  ⟨rfl, rfl,
    (ping_after_any_history application.sample State.initial
      [Request.simple "POST" "/user/login"] [] (Request.simple "GET" "/ping")
      (Request.simple "GET" "/ping") ⟨rfl, rfl⟩ ⟨rfl, rfl⟩).1,
    (ping_after_any_history application.sample State.initial
      [Request.simple "POST" "/user/login"] [] (Request.simple "GET" "/ping")
      (Request.simple "GET" "/ping") ⟨rfl, rfl⟩ ⟨rfl, rfl⟩).2.2.2⟩

end Snippets
